import Mathlib

/-!
Shallow embedding of the interstellar mission-planning simulator
(`src/engine.py`, `src/solar_sail.py`, `src/swimmer.py`, `src/starship.py`,
`src/constants.py`).

Modelling conventions, fixed once for the whole file:

* Python floats are idealised as real numbers (`ℝ`).  All quantities are
  plain reals carrying an implicit physical dimension; the spec (§1, §6)
  declares unit-of-measure arithmetic an opaque external collaborator, and
  every `x / kg`-style conversion in the source divides both sides of a
  comparison by the same positive constant, so it is dropped.  Masses are
  measured in MeV/c² (the unit of `constants.py`'s fusion masses), energies
  in MeV, lengths in metres, times in seconds.
* Python exceptions become `Except`.  At `Starship` level an error carries
  the ship state at the moment of the raise (`ShipErr`), because the source
  mutates state in place before some of its checks (spec §7); at `Engine`
  level every raise happens before any mutation, so a bare error kind
  suffices.  Error kinds use the spec §7 names.
* `scipy.integrate.solve_ivp` is the external adaptive ODE solver of spec
  §6: it is modelled as an oracle, i.e. `sail`/`swim` take the solver's
  sample list `(t, position, velocity)` (first sample = initial condition)
  as an explicit argument and run the source's per-sample loop over it.
  Arguments of `sail`/`swim` consumed only inside the integrand closure or
  by the solver itself (`max_accel`, `max_sail_time`, `power_delivered`,
  `swim_time`, `direction`) are therefore absorbed into the oracle output.
* The convergence loop of `generate_electricity` is written with the
  remaining iteration budget (`100 * len(engines) - total_loop_index`) as an
  explicit decreasing counter; the source raises `StuckLoop` exactly when
  the budget is exhausted, which is the counter reaching zero.
* Log messages are human-readable projections, not part of the state
  contract (spec §4.4, §9): they are embedded as short constant strings.
-/

namespace MissionPlanning

/-! ## constants.py -/

noncomputable def c : ℝ := 299792458

noncomputable def g : ℝ := 9.81

noncomputable def astronomical_unit : ℝ := 1.495978707e11

/-- Masses of the fusion reactants/products, in MeV/c² (`constants.py`). -/
noncomputable def mass_3He : ℝ := 2809.41

noncomputable def mass_4He : ℝ := 3728.40

noncomputable def mass_2H : ℝ := 1876.12

noncomputable def mass_p : ℝ := 938.27

/-! ## engine.py -/

structure Engine where
  fuel_mass : ℝ
  exhaust_velocity : ℝ

/-- `Engine.burn_fuel(burnt_fuel_mass, starship_mass)`: the Tsiolkovsky burn.
Returns the delta-v and the engine after the burn. -/
noncomputable def Engine.burn_fuel (e : Engine) (burnt_fuel_mass starship_mass : ℝ) :
    Except String (ℝ × Engine) :=
  let total_mass := starship_mass + e.fuel_mass
  if burnt_fuel_mass > e.fuel_mass then
    .error ("InsufficientFuel")
  else
    .ok (e.exhaust_velocity * Real.log (total_mass / (total_mass - burnt_fuel_mass)),
      { e with fuel_mass := e.fuel_mass - burnt_fuel_mass })

/-- `Engine.set_target_delta_v(delta_v, starship_mass)`: inverts the rocket
equation from `starship_mass` alone and delegates to `burn_fuel`; the
negative-fuel check of the source runs after the burn. -/
noncomputable def Engine.set_target_delta_v (e : Engine) (delta_v starship_mass : ℝ) :
    Except String Engine :=
  let final_mass := starship_mass * Real.exp (-1 * |delta_v| / e.exhaust_velocity)
  let delta_fuel_mass := starship_mass - final_mass
  match e.burn_fuel delta_fuel_mass starship_mass with
  | .error k => .error k
  | .ok res =>
    if res.2.fuel_mass < 0 then .error ("InsufficientFuel") else .ok res.2

/-- A driver applying a sequence of burns to one engine, keeping the engine
unchanged whenever a burn raises (the Python engine object is untouched by a
raise, which happens before any mutation). -/
noncomputable def applyBurns (e : Engine) (burns : List (ℝ × ℝ)) : Engine :=
  burns.foldl (fun acc bm =>
    match acc.burn_fuel bm.1 bm.2 with
    | .ok res => res.2
    | .error _ => acc) e

/-! ## solar_sail.py -/

structure SolarSail where
  sail_mass : ℝ
  sail_radius : ℝ
  reflectivity : ℝ
  stellar_luminosity : ℝ

/-- `SolarSail.radiation_pressure_1au()`. -/
noncomputable def SolarSail.radiation_pressure_1au (sl : SolarSail) : ℝ :=
  (1 + sl.reflectivity) * sl.stellar_luminosity /
    (4 * Real.pi * astronomical_unit ^ 2 * c)

/-- `SolarSail.characteristic_acceleration(payload_mass)`. -/
noncomputable def SolarSail.characteristic_acceleration (sl : SolarSail)
    (payload_mass : ℝ) : ℝ :=
  let total_mass := sl.sail_mass + payload_mass
  sl.reflectivity * sl.radiation_pressure_1au * Real.pi * sl.sail_radius ^ 2 / total_mass

/-- `SolarSail.acceleration(relative_position_from_star, payload_mass, max_accel)`.
`max_accel = none` is Python's `None`; the source guards the cap with
`if max_accel:`, which is Python truthiness, i.e. also skips a zero cap. -/
noncomputable def SolarSail.acceleration (sl : SolarSail)
    (relative_position_from_star payload_mass : ℝ) (max_accel : Option ℝ) : ℝ :=
  let total_mass := sl.sail_mass + payload_mass
  let accel := (1 + sl.reflectivity) * sl.stellar_luminosity * sl.sail_radius ^ 2 /
    (4 * c * total_mass * relative_position_from_star ^ 2)
  let accel :=
    match max_accel with
    | some ma => if ma ≠ 0 then min (accel / g) (ma / g) * g else accel
    | none => accel
  accel * Real.sign relative_position_from_star

/-- `SolarSail.final_velocity(payload_mass, initial_distance_from_star)`. -/
noncomputable def SolarSail.final_velocity (sl : SolarSail)
    (payload_mass initial_distance_from_star : ℝ) : ℝ :=
  548000 * Real.sqrt (sl.characteristic_acceleration payload_mass /
    |initial_distance_from_star / astronomical_unit|)

/-! ## swimmer.py (only the state the `Starship` aggregates; `acceleration`
is consumed exclusively inside the external solver's integrand) -/

structure Swimmer where
  pusher_area : ℝ
  pusher_areal_density : ℝ
  ion_mass : ℝ
  ion_density : ℝ

/-- `Swimmer.pusher_mass()`. -/
noncomputable def Swimmer.pusher_mass (sw : Swimmer) : ℝ :=
  sw.pusher_area * sw.pusher_areal_density

/-! ## starship.py — state -/

/-- One entry of `Starship.history`. -/
structure LogRecord where
  time : ℝ
  position : ℝ
  velocity : ℝ
  fuel_mass : ℝ

structure Starship where
  payload_mass : ℝ
  /-- The `engines` dict: an insertion-ordered association list. -/
  engines : List (String × Engine)
  velocity : ℝ
  position : ℝ
  time : ℝ
  destination_distance : ℝ
  electrical_power : ℝ
  solar_sail : Option SolarSail
  swimmer : Option Swimmer
  history : List LogRecord
  log_messages : List String

/-- A `Starship`-level failure: the raised error kind together with the ship
state at the moment of the raise (the source mutates in place, so a raise can
leave partial mutations behind — spec §7). -/
structure ShipErr where
  kind : String
  ship : Starship

/-- `Starship.fuel_mass()`: total fuel over all engines. -/
noncomputable def Starship.fuel_mass (ship : Starship) : ℝ :=
  (ship.engines.map (fun e => e.2.fuel_mass)).sum

/-- `Starship.total_mass()`. -/
noncomputable def Starship.total_mass (ship : Starship) : ℝ :=
  ship.payload_mass + ship.fuel_mass +
    (match ship.solar_sail with | some sl => sl.sail_mass | none => 0) +
    (match ship.swimmer with | some sw => sw.pusher_mass | none => 0)

/-- `Starship.log_entry(message)`. -/
noncomputable def Starship.log_entry (ship : Starship) (message : String) : Starship :=
  { ship with
    history := ship.history ++ [⟨ship.time, ship.position, ship.velocity, ship.fuel_mass⟩],
    log_messages := ship.log_messages ++ [message] }

/-- `Starship.__init__`: builds the state and appends the initial (empty)
log entry. -/
noncomputable def mkStarship (payload_mass : ℝ) (engines : List (String × Engine))
    (initial_velocity initial_position initial_time destination_distance
      electrical_power : ℝ)
    (solar_sail : Option SolarSail) (swimmer : Option Swimmer) : Starship :=
  Starship.log_entry
    { payload_mass := payload_mass
      engines := engines
      velocity := initial_velocity
      position := initial_position
      time := initial_time
      destination_distance := destination_distance
      electrical_power := electrical_power
      solar_sail := solar_sail
      swimmer := swimmer
      history := []
      log_messages := [] } ""

/-- Replace the engine stored under `name` (the source mutates the engine
object held by the dict). -/
noncomputable def Starship.setEngine (ship : Starship) (name : String) (e : Engine) :
    Starship :=
  { ship with engines := ship.engines.map (fun p => if p.1 = name then (p.1, e) else p) }

/-- Overwrite the per-engine fuel masses, in insertion order. -/
noncomputable def Starship.withEngineFuels (ship : Starship) (fuels : List ℝ) : Starship :=
  { ship with
    engines := (ship.engines.zip fuels).map (fun p => (p.1.1, { p.1.2 with fuel_mass := p.2 })) }

/-! ## starship.py — generate_electricity -/

/-- `energy_fusion = 18.354 MeV`: energy released by one ³He + ²H → p + ⁴He
reaction. -/
noncomputable def energy_fusion : ℝ := 18.354

/-- `num_reactions = energy_needed / (efficiency * energy_fusion)`. -/
noncomputable def numReactions (energy_needed efficiency : ℝ) : ℝ :=
  energy_needed / (efficiency * energy_fusion)

/-- `fuel_mass_lost = num_reactions * (mass_3He + mass_2H)`: the fuel mass the
call must drain from the engines. -/
noncomputable def requiredFuelLoss (energy_needed efficiency : ℝ) : ℝ :=
  numReactions energy_needed efficiency * (mass_3He + mass_2H)

/-- The fuel-distribution convergence loop of `generate_electricity`
(`starship.py` lines 86–101), over the list of per-engine fuel masses in
insertion order.  `rem` is the remaining iteration budget
`100 * len(engines) - total_loop_index`; the source raises `StuckLoop`
exactly when the incremented counter exceeds the budget, i.e. when `rem`
hits zero at the end of an iteration.  The error carries the fuel list at
the raise (the Python engines keep their partial drain). -/
noncomputable def elecLoop (n : ℕ) (engines : List ℝ)
    (fuel_mass_lost fuel_mass_lost_per_engine : ℝ) (engine_index : ℕ) (rem : ℕ) :
    Except (List ℝ) (List ℝ) :=
  if fuel_mass_lost > 1e-6 * fuel_mass_lost then
    let f := engines.getD engine_index 0
    let engines' := if f > fuel_mass_lost_per_engine
      then engines.set engine_index (f - fuel_mass_lost_per_engine) else engines
    let lost' := if f > fuel_mass_lost_per_engine
      then fuel_mass_lost - fuel_mass_lost_per_engine else fuel_mass_lost
    let idx' := engine_index + 1
    let idx2 := if n ≤ idx' then 0 else idx'
    let per' := if n ≤ idx' then fuel_mass_lost_per_engine / 2 else fuel_mass_lost_per_engine
    match rem with
    | 0 => .error engines'
    | rem' + 1 => elecLoop n engines' lost' per' idx2 rem'
  else .ok engines

/-- `Starship.generate_electricity(energy_needed, efficiency=0.7)`. -/
noncomputable def Starship.generate_electricity (ship : Starship)
    (energy_needed efficiency : ℝ) : Except ShipErr Starship :=
  let fuel_mass_lost := requiredFuelLoss energy_needed efficiency
  if ship.fuel_mass < fuel_mass_lost then
    .error ⟨"InsufficientFuel", ship⟩
  else
    let payload_mass_gained := numReactions energy_needed efficiency * (mass_p + mass_4He)
    let fuel_mass_lost_per_engine := fuel_mass_lost / (ship.engines.length : ℝ)
    match elecLoop ship.engines.length (ship.engines.map (fun e => e.2.fuel_mass))
        fuel_mass_lost fuel_mass_lost_per_engine 0 (100 * ship.engines.length) with
    | .error fuels => .error ⟨"StuckLoop", ship.withEngineFuels fuels⟩
    | .ok fuels =>
      .ok { ship.withEngineFuels fuels with
            payload_mass := ship.payload_mass + payload_mass_gained }

/-! ## starship.py — maneuvers -/

/-- Tail of `Starship.accelerate`: the post-maneuver relativistic-speed check
followed by the log entry (`starship.py` lines 150–159). -/
noncomputable def Starship.accelFinish (ship : Starship) : Except ShipErr Starship :=
  if |ship.velocity / c| > 0.5 then .error ⟨"RelativisticSpeed", ship⟩
  else .ok (ship.log_entry ("Acceleration"))

/-- `Starship.accelerate(engine_name, target_velocity, fuel_mass, direction,
acceleration, generate_electricity)`: fuel-driven when `fuel_mass` is given,
otherwise velocity-driven. -/
noncomputable def Starship.accelerate (ship : Starship) (engine_name : String)
    (target_velocity : ℝ) (fuel_mass : Option ℝ) (direction acceleration : ℝ)
    (gen_elec : Bool) : Except ShipErr Starship :=
  match ship.engines.lookup engine_name with
  | none => .error ⟨"KeyError", ship⟩
  | some eng =>
    match fuel_mass with
    | some fm =>
      match eng.burn_fuel fm ship.total_mass with
      | .error k => .error ⟨k, ship⟩
      | .ok res =>
        let delta_v := res.1
        let ship1 := ship.setEngine engine_name res.2
        let delta_t := |delta_v| / acceleration
        let ship2 := { ship1 with time := ship1.time + delta_t }
        let delta_pos := ship2.velocity * delta_t +
          direction * 0.5 * acceleration * delta_t ^ 2
        let ship3 := { ship2 with velocity := ship2.velocity + direction * delta_v }
        let ship4 := { ship3 with position := ship3.position + delta_pos }
        ship4.accelFinish
    | none =>
      match eng.set_target_delta_v (ship.velocity - target_velocity) ship.total_mass with
      | .error k => .error ⟨k, ship⟩
      | .ok eng' =>
        let ship1 := ship.setEngine engine_name eng'
        let delta_v := target_velocity - ship1.velocity
        let delta_t := |delta_v| / acceleration
        let delta_pos := ship1.velocity * delta_t +
          direction * 0.5 * acceleration * delta_t ^ 2
        let ship2 := { ship1 with
          time := ship1.time + delta_t
          velocity := target_velocity
          position := ship1.position + delta_pos }
        if gen_elec then
          match ship2.generate_electricity (ship2.electrical_power * delta_t) 0.7 with
          | .error e => .error e
          | .ok ship3 => ship3.accelFinish
        else ship2.accelFinish

/-- `Starship.cruise(distance, generate_electricity=True)`. -/
noncomputable def Starship.cruise (ship : Starship) (distance : ℝ) (gen_elec : Bool) :
    Except ShipErr Starship :=
  if ship.velocity = 0 then .error ⟨"NotMoving", ship⟩
  else
    let delta_pos := distance * Real.sign ship.velocity
    let delta_t := |distance / ship.velocity|
    let ship1 := { ship with
      position := ship.position + delta_pos
      time := ship.time + delta_t }
    match (if gen_elec
        then ship1.generate_electricity (ship1.electrical_power * delta_t) 0.7
        else .ok ship1) with
    | .error e => .error e
    | .ok ship2 => .ok (ship2.log_entry ("Cruise"))

/-- `Starship.wait(time, generate_electricity=True)`. -/
noncomputable def Starship.wait (ship : Starship) (time : ℝ) (gen_elec : Bool) :
    Except ShipErr Starship :=
  let ship1 := { ship with time := ship.time + time }
  let distance := ship1.velocity * time
  let ship2 := { ship1 with position := ship1.position + distance }
  match (if gen_elec
      then ship2.generate_electricity (ship2.electrical_power * time) 0.7
      else .ok ship2) with
  | .error e => .error e
  | .ok ship3 => .ok (ship3.log_entry ("Waited"))

/-- The per-sample loop of `Starship.sail` (`starship.py` lines 235–257):
`prev` is the previous solver sample `(t, position, velocity)` and `rest` the
remaining ones.  Each processed sample advances time, overwrites position
(relative sample mapped back through the initial position) and velocity, logs
one entry, then checks the two early-stop conditions and otherwise optionally
draws electricity before continuing. -/
noncomputable def Starship.sailLoop (target_velocity rel0 initial_position : ℝ)
    (gen_elec : Bool) (prev : ℝ × ℝ × ℝ) (rest : List (ℝ × ℝ × ℝ)) (ship : Starship) :
    Except ShipErr Starship :=
  match rest with
  | [] => .ok ship
  | cur :: rest' =>
    let delta_t := cur.1 - prev.1
    let ship1 := { ship with
      time := ship.time + delta_t
      position := initial_position + cur.2.1 - rel0
      velocity := cur.2.2 }
    let ship2 := ship1.log_entry ("Sailing")
    -- at this point `self.velocity` is the just-assigned sample `cur.2.2`
    if target_velocity = 0 ∧ Real.sign (cur.2.2 / c) ≠ Real.sign prev.2.2 then
      .ok ship2
    else if Real.sign rel0 = Real.sign (cur.2.2 / c) ∧
        |cur.2.2 / c| > |target_velocity / c| then
      .ok ship2
    else
      match (if gen_elec
          then ship2.generate_electricity (ship2.electrical_power * delta_t) 0.7
          else .ok ship2) with
      | .error e => .error e
      | .ok ship3 =>
        Starship.sailLoop target_velocity rel0 initial_position gen_elec cur rest' ship3

/-- The number of solver samples `Starship.sail`'s loop processes (= logs)
before stopping: mirrors the two early-stop conditions of `sailLoop`, which
depend only on the samples, the resolved target and the initial star-relative
position. -/
noncomputable def sailSteps (target_velocity rel0 : ℝ) (prev : ℝ × ℝ × ℝ)
    (rest : List (ℝ × ℝ × ℝ)) : ℕ :=
  match rest with
  | [] => 0
  | cur :: rest' =>
    if target_velocity = 0 ∧ Real.sign (cur.2.2 / c) ≠ Real.sign prev.2.2 then 1
    else if Real.sign rel0 = Real.sign (cur.2.2 / c) ∧
        |cur.2.2 / c| > |target_velocity / c| then 1
    else 1 + sailSteps target_velocity rel0 cur rest'

/-- The body of `Starship.sail` after the target velocity has been resolved
(`starship.py` lines 208–266): the UnreachableVelocity gate, the per-sample
loop, the final snap of the velocity to exactly zero in the deceleration
case, and the summary log entry. -/
noncomputable def Starship.sailCore (ship : Starship) (target position_of_star
    max_velocity : ℝ) (gen_elec : Bool) (samples : List (ℝ × ℝ × ℝ)) :
    Except ShipErr Starship :=
  if |target / c| > |max_velocity / c| then .error ⟨"UnreachableVelocity", ship⟩
  else
    match samples with
    | [] =>
      let shipF := if target = 0 then { ship with velocity := 0 } else ship
      .ok (shipF.log_entry ("Finished sailing"))
    | first :: rest =>
      match Starship.sailLoop target (ship.position - position_of_star) ship.position
          gen_elec first rest ship with
      | .error e => .error e
      | .ok shipL =>
        let shipF := if target = 0 then { shipL with velocity := 0 } else shipL
        .ok (shipF.log_entry ("Finished sailing"))

/-- `Starship.sail(target_velocity, position_of_star, max_accel, max_sail_time,
generate_electricity)`.  `samples` is the external solver's output
`(t, relative position, velocity)` for this maneuver (first sample = the
initial condition); `max_accel` and `max_sail_time` act only through the
integrand/solver and are absorbed into `samples`. -/
noncomputable def Starship.sail (ship : Starship) (target_velocity : Option ℝ)
    (position_of_star : ℝ) (gen_elec : Bool) (samples : List (ℝ × ℝ × ℝ)) :
    Except ShipErr Starship :=
  match ship.solar_sail with
  | none => .error ⟨"NoSolarSail", ship⟩
  | some sl =>
    let relative_position_to_star := ship.position - position_of_star
    let max_velocity := sl.final_velocity (ship.total_mass - sl.sail_mass)
      relative_position_to_star
    let target :=
      match target_velocity with
      | some tv => tv
      | none =>
        if Real.sign relative_position_to_star = -1 * Real.sign (ship.velocity / c)
          then (0 : ℝ)
          else 0.90 * max_velocity * Real.sign relative_position_to_star
    ship.sailCore target position_of_star max_velocity gen_elec samples

/-- The per-sample loop of `Starship.swim` (`starship.py` lines 300–314): like
`sailLoop` but with absolute position samples and no early-stop condition. -/
noncomputable def Starship.swimLoop (gen_elec : Bool) (prev : ℝ × ℝ × ℝ)
    (rest : List (ℝ × ℝ × ℝ)) (ship : Starship) : Except ShipErr Starship :=
  match rest with
  | [] => .ok ship
  | cur :: rest' =>
    let delta_t := cur.1 - prev.1
    let ship1 := { ship with
      time := ship.time + delta_t
      position := cur.2.1
      velocity := cur.2.2 }
    let ship2 := ship1.log_entry ("Swimming")
    match (if gen_elec
        then ship2.generate_electricity (ship2.electrical_power * delta_t) 0.7
        else .ok ship2) with
    | .error e => .error e
    | .ok ship3 => Starship.swimLoop gen_elec cur rest' ship3

/-- `Starship.swim(power_delivered, swim_time, direction, generate_electricity)`.
`samples` is the external solver's output; `power_delivered`, `swim_time` and
`direction` act only through the integrand/solver and are absorbed into it. -/
noncomputable def Starship.swim (ship : Starship) (gen_elec : Bool)
    (samples : List (ℝ × ℝ × ℝ)) : Except ShipErr Starship :=
  match ship.swimmer with
  | none => .error ⟨"NoSwimmer", ship⟩
  | some _ =>
    match samples with
    | [] => .ok (ship.log_entry ("Finished swimming"))
    | first :: rest =>
      match Starship.swimLoop gen_elec first rest ship with
      | .error e => .error e
      | .ok ship' => .ok (ship'.log_entry ("Finished swimming"))

/-! ## Maneuver sequences -/

/-- One top-level maneuver call, for quantifying over call sequences. -/
inductive Maneuver where
  | accelerate (engine_name : String) (target_velocity : ℝ) (fuel_mass : Option ℝ)
      (direction acceleration : ℝ) (gen_elec : Bool)
  | cruise (distance : ℝ) (gen_elec : Bool)
  | wait (time : ℝ) (gen_elec : Bool)
  | generate (energy_needed efficiency : ℝ)
  | sail (target_velocity : Option ℝ) (position_of_star : ℝ) (gen_elec : Bool)
      (samples : List (ℝ × ℝ × ℝ))
  | swim (gen_elec : Bool) (samples : List (ℝ × ℝ × ℝ))

/-- Run one maneuver; on a raise the ship is left in the state the
partially-executed call reached (the Python objects keep their in-place
mutations). -/
noncomputable def runManeuver (ship : Starship) (mv : Maneuver) : Starship :=
  let out : Except ShipErr Starship :=
    match mv with
    | .accelerate en tv fm dir a ge => ship.accelerate en tv fm dir a ge
    | .cruise d ge => ship.cruise d ge
    | .wait t ge => ship.wait t ge
    | .generate e eff => ship.generate_electricity e eff
    | .sail tv star ge smp => ship.sail tv star ge smp
    | .swim ge smp => ship.swim ge smp
  match out with
  | .ok s => s
  | .error e => e.ship

/-- The error kind of a failed call, `none` for success. -/
def errKind : Except ShipErr Starship → Option String
  | .error e => some e.kind
  | .ok _ => none

/-- `len(history) == len(log_messages)`. -/
def balancedLogs (ship : Starship) : Prop :=
  ship.history.length = ship.log_messages.length

/-! ## Concrete mission states used to instantiate the theorems -/

/-- The energy whose generation requires exactly one mass unit of fuel
(`requiredFuelLoss elecE 0.7 = 1`). -/
noncomputable def elecE : ℝ := 0.7 * energy_fusion / (mass_3He + mass_2H)

/-- One engine holding exactly the fuel that `generate_electricity elecE`
must drain. -/
noncomputable def shipC3 : Starship :=
  mkStarship 1 [("main", ⟨1, 500⟩)] 0 0 0 1 1 none none

noncomputable def shipC4 : Starship :=
  mkStarship 1 [("main", ⟨10, 500⟩)] 0 0 0 1 1 none none

/-- `shipC4` after generating `elecE` of electricity. -/
noncomputable def shipC4ok : Starship :=
  { payload_mass := 1 + (mass_p + mass_4He) / (mass_3He + mass_2H)
    engines := [("main", ⟨9, 500⟩)]
    velocity := 0
    position := 0
    time := 0
    destination_distance := 1
    electrical_power := 1
    solar_sail := none
    swimmer := none
    history := [⟨0, 0, 0, 10⟩]
    log_messages := [""] }

noncomputable def shipC5 : Starship :=
  mkStarship 1 [] 0 0 0 1 1 none (some ⟨1, 1, 1, 1⟩)

/-- A solver run for `swim` ending at 0.9 c. -/
noncomputable def samplesC5 : List (ℝ × ℝ × ℝ) := [(0, 0, 0), (1, 1, 0.9 * c)]

/-- `shipC5` after swimming through `samplesC5`. -/
noncomputable def swimResultC5 : Starship :=
  { payload_mass := 1
    engines := []
    velocity := 0.9 * c
    position := 1
    time := 1
    destination_distance := 1
    electrical_power := 1
    solar_sail := none
    swimmer := some ⟨1, 1, 1, 1⟩
    history := [⟨0, 0, 0, 0⟩, ⟨1, 1, 0.9 * c, 0⟩, ⟨1, 1, 0.9 * c, 0⟩]
    log_messages := ["", "Swimming", "Finished swimming"] }

noncomputable def shipMoving : Starship :=
  mkStarship 1 [("main", ⟨1, 500⟩)] 1 0 0 1 1 none none

/-- `shipMoving` after `cruise(2, generate_electricity=False)`. -/
noncomputable def cruiseResult : Starship :=
  { payload_mass := 1
    engines := [("main", ⟨1, 500⟩)]
    velocity := 1
    position := 2
    time := 2
    destination_distance := 1
    electrical_power := 1
    solar_sail := none
    swimmer := none
    history := [⟨0, 0, 1, 1⟩, ⟨2, 2, 1, 1⟩]
    log_messages := ["", "Cruise"] }

noncomputable def shipAcc : Starship :=
  mkStarship 1 [("main", ⟨1, 1⟩)] 0 0 0 1 1 none none

/-- `shipAcc` after the fuel-driven
`accelerate("main", fuel_mass=1, direction=1, acceleration=1,
generate_electricity=False)`: the burn sees
`total_mass = starship.total_mass() + fuel = 2 + 1`, so
`delta_v = log(3/2)`. -/
noncomputable def accResult : Starship :=
  { payload_mass := 1
    engines := [("main", ⟨0, 1⟩)]
    velocity := Real.log (3 / 2)
    position := 0.5 * Real.log (3 / 2) ^ 2
    time := Real.log (3 / 2)
    destination_distance := 1
    electrical_power := 1
    solar_sail := none
    swimmer := none
    history := [⟨0, 0, 0, 1⟩, ⟨Real.log (3 / 2), 0.5 * Real.log (3 / 2) ^ 2, Real.log (3 / 2), 0⟩]
    log_messages := ["", "Acceleration"] }

noncomputable def shipStill : Starship := mkStarship 1 [] 0 0 0 1 1 none none

noncomputable def sl9 : SolarSail := ⟨1, 1, 0.9, 4 * c⟩

noncomputable def shipSailing : Starship :=
  mkStarship 1 [] 0 1 0 1 1 (some ⟨1, 1, 0.9, 1⟩) none

/-- `shipSailing` after `sail(0, position_of_star=0)` over an exhausted
(empty) solver horizon. -/
noncomputable def sailResult : Starship :=
  { payload_mass := 1
    engines := []
    velocity := 0
    position := 1
    time := 0
    destination_distance := 1
    electrical_power := 1
    solar_sail := some ⟨1, 1, 0.9, 1⟩
    swimmer := none
    history := [⟨0, 1, 0, 0⟩, ⟨0, 1, 0, 0⟩]
    log_messages := ["", "Finished sailing"] }

/-! ## Engine lemmas -/

theorem burn_fuel_ok (e : Engine) (b M : ℝ) (h : b ≤ e.fuel_mass) :
    e.burn_fuel b M =
      .ok (e.exhaust_velocity * Real.log ((M + e.fuel_mass) / (M + e.fuel_mass - b)),
        { e with fuel_mass := e.fuel_mass - b }) := by
  simp [Engine.burn_fuel, not_lt.2 h]

theorem burn_fuel_error (e : Engine) (b M : ℝ) (h : e.fuel_mass < b) :
    e.burn_fuel b M = .error ("InsufficientFuel") := by
  simp [Engine.burn_fuel, h]

theorem burn_fuel_error_kind (e : Engine) (b M : ℝ) (k : String)
    (h : e.burn_fuel b M = .error k) : k = "InsufficientFuel" := by
  by_cases hb : e.fuel_mass < b
  · rw [burn_fuel_error e b M hb] at h
    simp only [Except.error.injEq] at h
    exact h.symm
  · rw [burn_fuel_ok e b M (not_lt.1 hb)] at h
    exact absurd h (by simp)

theorem set_target_delta_v_error_kind (e : Engine) (dv S : ℝ) (k : String)
    (h : e.set_target_delta_v dv S = .error k) : k = "InsufficientFuel" := by
  simp only [Engine.set_target_delta_v] at h
  rcases hb : e.burn_fuel (S - S * Real.exp (-1 * |dv| / e.exhaust_velocity)) S with k' | r
  · rw [hb] at h
    simp only [Except.error.injEq] at h
    exact h ▸ burn_fuel_error_kind _ _ _ _ hb
  · rw [hb] at h
    by_cases hneg : r.2.fuel_mass < 0
    · simp only [if_pos hneg, Except.error.injEq] at h
      exact h.symm
    · simp only [if_neg hneg] at h
      exact absurd h (by simp)

/-- Evaluation of `set_target_delta_v` at a delta-v written as
`exhaust_velocity * log r`: the inverted rocket equation burns
`S - S / r` of fuel. -/
theorem set_target_log_eval (F ve S r : ℝ) (hve : 0 < ve) (hr : 1 ≤ r)
    (hburn : S - S * r⁻¹ ≤ F) :
    Engine.set_target_delta_v ⟨F, ve⟩ (ve * Real.log r) S =
      .ok ⟨F - (S - S * r⁻¹), ve⟩ := by
  have hr0 : 0 < r := lt_of_lt_of_le one_pos hr
  have hlog : 0 ≤ Real.log r := Real.log_nonneg hr
  have habs : |ve * Real.log r| = ve * Real.log r :=
    abs_of_nonneg (mul_nonneg hve.le hlog)
  have hdiv : -1 * |ve * Real.log r| / ve = -Real.log r := by
    rw [habs, neg_one_mul, neg_div, mul_div_cancel_left₀ _ hve.ne']
  have hexp : Real.exp (-1 * |ve * Real.log r| / ve) = r⁻¹ := by
    rw [hdiv, Real.exp_neg, Real.exp_log hr0]
  simp only [Engine.set_target_delta_v, hexp]
  rw [burn_fuel_ok ⟨F, ve⟩ (S - S * r⁻¹) S hburn]
  simp only [if_neg (not_lt.2 (sub_nonneg.2 hburn))]

theorem applyBurns_nil (e : Engine) : applyBurns e [] = e := rfl

theorem applyBurns_cons (e : Engine) (bm : ℝ × ℝ) (burns : List (ℝ × ℝ)) :
    applyBurns e (bm :: burns) =
      applyBurns (match e.burn_fuel bm.1 bm.2 with
        | .ok res => res.2
        | .error _ => e) burns := rfl

theorem applyBurns_append_single (e : Engine) (burns : List (ℝ × ℝ)) (b M : ℝ) :
    applyBurns e (burns ++ [(b, M)]) =
      (match (applyBurns e burns).burn_fuel b M with
        | .ok res => res.2
        | .error _ => applyBurns e burns) := by
  simp [applyBurns, List.foldl_append]

/-- One attempted burn never drives the fuel negative and, for a non-negative
requested mass, never increases it. -/
theorem burn_step_fuel (e : Engine) (b M : ℝ) :
    (0 ≤ e.fuel_mass →
      0 ≤ (match e.burn_fuel b M with
        | .ok res => res.2
        | .error _ => e).fuel_mass)
    ∧ (0 ≤ b →
      (match e.burn_fuel b M with
        | .ok res => res.2
        | .error _ => e).fuel_mass ≤ e.fuel_mass) := by
  by_cases hb : e.fuel_mass < b
  · rw [burn_fuel_error e b M hb]
    exact ⟨fun h => h, fun _ => le_refl _⟩
  · rw [burn_fuel_ok e b M (not_lt.1 hb)]
    exact ⟨fun _ => sub_nonneg.2 (not_lt.1 hb), fun h0 => sub_le_self _ h0⟩

theorem applyBurns_nonneg (e : Engine) (burns : List (ℝ × ℝ))
    (h : 0 ≤ e.fuel_mass) : 0 ≤ (applyBurns e burns).fuel_mass := by
  induction burns generalizing e with
  | nil => exact h
  | cons bm rest ih =>
    rw [applyBurns_cons]
    exact ih _ ((burn_step_fuel e bm.1 bm.2).1 h)

/-- C2: `burn_fuel` fails with InsufficientFuel (mutating nothing) exactly
when the requested mass exceeds the reservoir; otherwise it returns the
Tsiolkovsky delta-v over `total_mass = starship_mass + fuel_mass` and
decrements the reservoir by exactly the burnt mass; hence over any sequence
of attempted burns with non-negative requested masses the fuel is
non-increasing, and it never becomes negative. -/
theorem burn_fuel_contract :
    (∀ (e : Engine) (b M : ℝ), e.fuel_mass < b →
      e.burn_fuel b M = .error ("InsufficientFuel"))
    ∧ (∀ (e : Engine) (b M : ℝ), b ≤ e.fuel_mass →
      e.burn_fuel b M =
        .ok (e.exhaust_velocity * Real.log ((M + e.fuel_mass) / (M + e.fuel_mass - b)),
          { e with fuel_mass := e.fuel_mass - b }))
    ∧ (∀ (e : Engine) (burns : List (ℝ × ℝ)), 0 ≤ e.fuel_mass →
      0 ≤ (applyBurns e burns).fuel_mass)
    ∧ (∀ (e : Engine) (burns : List (ℝ × ℝ)) (b M : ℝ), 0 ≤ b →
      (applyBurns e (burns ++ [(b, M)])).fuel_mass ≤ (applyBurns e burns).fuel_mass) := by
  refine ⟨burn_fuel_error, burn_fuel_ok, applyBurns_nonneg, fun e burns b M h0 => ?_⟩
  rw [applyBurns_append_single]
  exact (burn_step_fuel (applyBurns e burns) b M).2 h0

/-- C2 witness: a burn of 2 out of 1 fails with InsufficientFuel. -/
theorem burn_fuel_contract_witness :
    Engine.burn_fuel ⟨1, 500⟩ 2 1 = .error ("InsufficientFuel") :=
  burn_fuel_contract.1 ⟨1, 500⟩ 2 1 (by norm_num)

/-- C1 counterexample: `burn_fuel(1, 1)` on an engine with fuel 1 yields
`delta_v = 500 * log 2` and empties the tank, but `set_target_delta_v` of
that delta-v on a fresh copy of the engine with the same `starship_mass = 1`
burns only `1/2` — the fresh engine retains fuel `1/2 ≠ 1 - 1`, so the two
operations are not inverses (`set_target_delta_v` inverts the rocket
equation from `starship_mass` alone, while `burn_fuel` uses
`starship_mass + fuel_mass`). -/
theorem rocket_roundtrip_cex :
    Engine.burn_fuel ⟨1, 500⟩ 1 1 = .ok (500 * Real.log 2, ⟨0, 500⟩)
    ∧ Engine.set_target_delta_v ⟨1, 500⟩ (500 * Real.log 2) 1 = .ok ⟨1 / 2, 500⟩
    ∧ ((1 : ℝ) / 2 ≠ 1 - 1) := by
  refine ⟨?_, ?_, by norm_num⟩
  · rw [burn_fuel_ok ⟨1, 500⟩ 1 1 (by norm_num)]
    norm_num
  · have h := set_target_log_eval 1 500 1 2 (by norm_num) (by norm_num) (by norm_num)
    rw [h]
    norm_num

/-- C1 amended: the round-trip reproduces the burnt mass `d` exactly when
`set_target_delta_v` is handed the burn's initial total mass
`starship_mass + fuel_mass` (not the bare `starship_mass`): burning
`0 < d ≤ F` out of an engine `⟨F, ve⟩` against `starship_mass M > 0` gives
`delta_v = ve * log((M+F)/(M+F-d))`, and `set_target_delta_v` of that
delta-v with mass `M + F` on a fresh copy burns exactly `d` again. -/
theorem rocket_roundtrip_amended (F M d ve : ℝ) (hF : 0 < F) (hM : 0 < M)
    (hd : 0 < d) (hdF : d ≤ F) (hve : 0 < ve) :
    Engine.burn_fuel ⟨F, ve⟩ d M =
      .ok (ve * Real.log ((M + F) / (M + F - d)), ⟨F - d, ve⟩)
    ∧ Engine.set_target_delta_v ⟨F, ve⟩ (ve * Real.log ((M + F) / (M + F - d))) (M + F) =
      .ok ⟨F - d, ve⟩ := by
  have hMF : 0 < M + F := by linarith
  have hMFd : 0 < M + F - d := by linarith
  constructor
  · rw [burn_fuel_ok ⟨F, ve⟩ d M hdF]
  · have hinv : (M + F) * ((M + F) / (M + F - d))⁻¹ = M + F - d := by
      rw [inv_div]
      field_simp
    have h := set_target_log_eval F ve (M + F) ((M + F) / (M + F - d)) hve
      ((one_le_div hMFd).2 (by linarith)) (by rw [hinv]; linarith)
    rw [h, hinv]
    norm_num

/-- C1 amended, witness at `F = 1, M = 1, d = 1, ve = 500`. -/
theorem rocket_roundtrip_amended_witness :
    Engine.burn_fuel ⟨1, 500⟩ 1 1 =
      .ok (500 * Real.log ((1 + 1) / (1 + 1 - 1)), ⟨1 - 1, 500⟩)
    ∧ Engine.set_target_delta_v ⟨1, 500⟩
        (500 * Real.log ((1 + 1) / (1 + 1 - 1))) (1 + 1) = .ok ⟨1 - 1, 500⟩ :=
  rocket_roundtrip_amended 1 1 1 500 (by norm_num) (by norm_num) (by norm_num)
    (by norm_num) (by norm_num)

/-! ## Electricity-generation lemmas -/

theorem sum_set (l : List ℝ) (i : ℕ) (a : ℝ) (h : i < l.length) :
    (l.set i a).sum = l.sum - l.getD i 0 + a := by
  induction l generalizing i with
  | nil => simp at h
  | cons x xs ih =>
    cases i with
    | zero => simp [List.set]; ring
    | succ j =>
      simp only [List.set, List.sum_cons, List.getD_cons_succ]
      rw [ih j (by simpa using h)]
      ring

/-- The source's loop condition `fuel_mass_lost > 1e-6 * fuel_mass_lost`
compares the deficit against itself, so on exit a non-negative deficit is
exactly zero. -/
theorem loop_exit_zero (lost per : ℝ) (k : ℕ) (hk : lost = k * per) (hper : 0 < per)
    (hexit : ¬ lost > 1e-6 * lost) : lost = 0 := by
  have h1 : lost ≤ 0 := by nlinarith [not_lt.1 hexit]
  have h2 : 0 ≤ lost := by
    rw [hk]
    positivity
  linarith

/-- A successful convergence loop drains exactly the requested deficit and
keeps the engine count: the deficit stays a natural multiple of the current
quota, so the only successful exit is at deficit exactly zero. -/
theorem elecLoop_ok (n : ℕ) : ∀ (rem : ℕ) (engines : List ℝ) (lost per : ℝ)
    (idx : ℕ) (fuels : List ℝ), 0 < per → (∃ k : ℕ, lost = (k : ℝ) * per) →
    elecLoop n engines lost per idx rem = .ok fuels →
    fuels.sum = engines.sum - lost ∧ fuels.length = engines.length := by
  intro rem
  induction rem with
  | zero =>
    intro engines lost per idx fuels hper ⟨k, hk⟩ h
    rw [elecLoop.eq_def] at h
    by_cases hc : lost > 1e-6 * lost
    · simp only [if_pos hc] at h
      exact absurd h (by simp)
    · simp only [if_neg hc, Except.ok.injEq] at h
      have h0 := loop_exit_zero lost per k hk hper hc
      subst h
      simp [h0]
  | succ rem' ih =>
    intro engines lost per idx fuels hper ⟨k, hk⟩ h
    rw [elecLoop.eq_def] at h
    by_cases hc : lost > 1e-6 * lost
    · simp only [if_pos hc] at h
      have hlost0 : 0 < lost := by nlinarith
      by_cases hpay : engines.getD idx 0 > per
      · simp only [if_pos hpay] at h
        have hidx : idx < engines.length := by
          by_contra hge
          have : engines.getD idx 0 = 0 := List.getD_eq_default _ _ (le_of_not_lt hge)
          rw [this] at hpay
          linarith
        have hk1 : 1 ≤ k := by
          by_contra hk0
          interval_cases k
          simp at hk
          nlinarith
        obtain ⟨k0, rfl⟩ : ∃ k0, k = k0 + 1 := ⟨k - 1, by omega⟩
        have hlost' : lost - per = (k0 : ℝ) * per := by
          rw [hk]
          push_cast
          ring
        by_cases hpass : n ≤ idx + 1
        · simp only [if_pos hpass] at h
          have := ih _ (lost - per) (per / 2) 0 fuels (by linarith)
            ⟨2 * k0, by rw [hlost']; push_cast; ring⟩ h
          rw [sum_set _ _ _ hidx] at this
          constructor
          · rw [this.1]; ring
          · rw [this.2, List.length_set]
        · simp only [if_neg hpass] at h
          have := ih _ (lost - per) per (idx + 1) fuels hper ⟨k0, hlost'⟩ h
          rw [sum_set _ _ _ hidx] at this
          constructor
          · rw [this.1]; ring
          · rw [this.2, List.length_set]
      · simp only [if_neg hpay] at h
        by_cases hpass : n ≤ idx + 1
        · simp only [if_pos hpass] at h
          exact ih _ lost (per / 2) 0 fuels (by linarith)
            ⟨2 * k, by rw [hk]; push_cast; ring⟩ h
        · simp only [if_neg hpass] at h
          exact ih _ lost per (idx + 1) fuels hper ⟨k, hk⟩ h
    · simp only [if_neg hc, Except.ok.injEq] at h
      have h0 := loop_exit_zero lost per k hk hper hc
      subst h
      simp [h0]

/-- A single engine holding exactly the remaining deficit never zeroes it:
the engine's fuel never strictly exceeds the full quota, so the loop keeps
halving and leaves a positive remainder until the budget runs out. -/
theorem elecLoop_stuck : ∀ (rem : ℕ) (r : ℝ), 0 < r →
    ∃ fuels, elecLoop 1 [r] r (r / 2) 0 rem = .error fuels := by
  intro rem
  induction rem with
  | zero =>
    intro r hr
    rw [elecLoop.eq_def]
    have hc : r > 1e-6 * r := by nlinarith
    have hpay : ([r].getD 0 0 : ℝ) > r / 2 := by
      simp
      linarith
    simp only [if_pos hc, if_pos hpay]
    exact ⟨_, rfl⟩
  | succ rem' ih =>
    intro r hr
    rw [elecLoop.eq_def]
    have hc : r > 1e-6 * r := by nlinarith
    have hpay : ([r].getD 0 0 : ℝ) > r / 2 := by
      simp
      linarith
    simp only [if_pos hc, if_pos hpay]
    obtain ⟨fuels, hf⟩ := ih (r / 2) (by linarith)
    refine ⟨fuels, ?_⟩
    have hlist : List.set [r] 0 (r - r / 2) = [r / 2] := by
      norm_num
      ring
    have hhalf : r - r / 2 = r / 2 := by ring
    simp only [hlist, hhalf]
    convert hf using 2

theorem zip_map_fuel (l : List (String × Engine)) :
    (l.zip (l.map (fun e => e.2.fuel_mass))).map
      (fun p => (p.1.1, { p.1.2 with fuel_mass := p.2 })) = l := by
  induction l with
  | nil => rfl
  | cons x xs ih => simp [ih]

theorem withEngineFuels_self (ship : Starship) :
    ship.withEngineFuels (ship.engines.map (fun e => e.2.fuel_mass)) = ship := by
  unfold Starship.withEngineFuels
  rw [zip_map_fuel]

theorem zip_fuel_sum (l : List (String × Engine)) (fuels : List ℝ)
    (h : fuels.length = l.length) :
    (((l.zip fuels).map (fun p => (p.1.1, { p.1.2 with fuel_mass := p.2 }))).map
      (fun e => e.2.fuel_mass)).sum = fuels.sum := by
  induction l generalizing fuels with
  | nil =>
    cases fuels with
    | nil => rfl
    | cons y ys => simp at h
  | cons x xs ih =>
    cases fuels with
    | nil => simp at h
    | cons y ys =>
      simp only [List.zip_cons_cons, List.map_cons, List.sum_cons]
      rw [ih ys (by simpa using h)]

theorem withEngineFuels_fuel (ship : Starship) (fuels : List ℝ)
    (h : fuels.length = ship.engines.length) :
    (ship.withEngineFuels fuels).fuel_mass = fuels.sum := by
  unfold Starship.withEngineFuels Starship.fuel_mass
  exact zip_fuel_sum _ _ h

/-- The state a successful `generate_electricity` leaves: reaction products
added to the payload, exactly the required fuel loss drained, everything
else untouched. -/
theorem generate_electricity_ok_state (ship : Starship) (E eff : ℝ) (s' : Starship)
    (hreq : 0 ≤ requiredFuelLoss E eff)
    (h : ship.generate_electricity E eff = .ok s') :
    s'.payload_mass = ship.payload_mass + numReactions E eff * (mass_p + mass_4He)
    ∧ s'.fuel_mass = ship.fuel_mass - requiredFuelLoss E eff
    ∧ s'.position = ship.position ∧ s'.time = ship.time ∧ s'.velocity = ship.velocity
    ∧ s'.history = ship.history ∧ s'.log_messages = ship.log_messages
    ∧ s'.electrical_power = ship.electrical_power
    ∧ s'.engines.length = ship.engines.length := by
  simp only [Starship.generate_electricity] at h
  by_cases hf : ship.fuel_mass < requiredFuelLoss E eff
  · rw [if_pos hf] at h
    exact absurd h (by simp)
  · rw [if_neg hf] at h
    rcases hloop : elecLoop ship.engines.length
        (ship.engines.map (fun e => e.2.fuel_mass)) (requiredFuelLoss E eff)
        (requiredFuelLoss E eff / (ship.engines.length : ℝ)) 0
        (100 * ship.engines.length) with fuels | fuels
    · rw [hloop] at h
      exact absurd h (by simp)
    · rw [hloop] at h
      simp only [Except.ok.injEq] at h
      subst h
      rcases eq_or_lt_of_le hreq with hreq0 | hreqpos
      · rw [← hreq0] at hloop
        rw [elecLoop.eq_def] at hloop
        rw [if_neg (by norm_num)] at hloop
        simp only [Except.ok.injEq] at hloop
        subst hloop
        rw [withEngineFuels_self]
        refine ⟨rfl, ?_, rfl, rfl, rfl, rfl, rfl, rfl, rfl⟩
        rw [← hreq0]
        simp [Starship.fuel_mass]
      · have hne : ship.engines ≠ [] := by
          intro hnil
          apply hf
          unfold Starship.fuel_mass
          rw [hnil]
          simpa using hreqpos
        have hn : 0 < ship.engines.length := List.length_pos.2 hne
        have hnR : (0 : ℝ) < (ship.engines.length : ℝ) := by exact_mod_cast hn
        have hper : 0 < requiredFuelLoss E eff / (ship.engines.length : ℝ) :=
          div_pos hreqpos hnR
        have hmult : ∃ k : ℕ, requiredFuelLoss E eff =
            (k : ℝ) * (requiredFuelLoss E eff / (ship.engines.length : ℝ)) :=
          ⟨ship.engines.length, by field_simp⟩
        obtain ⟨hsum, hlen⟩ := elecLoop_ok _ _ _ _ _ _ _ hper hmult hloop
        have hlen' : fuels.length = ship.engines.length := by
          rw [hlen, List.length_map]
        refine ⟨rfl, ?_, rfl, rfl, rfl, rfl, rfl, rfl, ?_⟩
        · show (ship.withEngineFuels fuels).fuel_mass = _
          rw [withEngineFuels_fuel _ _ hlen', hsum]
          rfl
        · show (ship.withEngineFuels fuels).engines.length = _
          unfold Starship.withEngineFuels
          simp [List.length_zip, hlen']

/-- `generate_electricity` raises InsufficientFuel — leaving the ship exactly
as it was — precisely when the total fuel is below the required loss. -/
theorem generate_electricity_insufficient (ship : Starship) (E eff : ℝ) :
    ship.generate_electricity E eff = .error ⟨"InsufficientFuel", ship⟩
      ↔ ship.fuel_mass < requiredFuelLoss E eff := by
  constructor
  · intro h
    by_contra hf
    simp only [Starship.generate_electricity, if_neg hf] at h
    rcases hloop : elecLoop ship.engines.length
        (ship.engines.map (fun e => e.2.fuel_mass)) (requiredFuelLoss E eff)
        (requiredFuelLoss E eff / (ship.engines.length : ℝ)) 0
        (100 * ship.engines.length) with fuels | fuels
    · rw [hloop] at h
      simp only [Except.error.injEq, ShipErr.mk.injEq] at h
      exact absurd h.1 (by decide)
    · rw [hloop] at h
      exact absurd h (by simp)
  · intro hf
    simp only [Starship.generate_electricity, if_pos hf]

/-- A failed `generate_electricity` leaves position, time, velocity and the
log untouched (only engine fuels may have been partially drained by a
StuckLoop raise), and raises one of the two §7 kinds. -/
theorem generate_electricity_error_state (ship : Starship) (E eff : ℝ) (e : ShipErr)
    (h : ship.generate_electricity E eff = .error e) :
    e.ship.position = ship.position ∧ e.ship.time = ship.time
    ∧ e.ship.velocity = ship.velocity ∧ e.ship.history = ship.history
    ∧ e.ship.log_messages = ship.log_messages
    ∧ e.ship.electrical_power = ship.electrical_power
    ∧ (e.kind = "InsufficientFuel" ∨ e.kind = "StuckLoop") := by
  simp only [Starship.generate_electricity] at h
  by_cases hf : ship.fuel_mass < requiredFuelLoss E eff
  · rw [if_pos hf] at h
    simp only [Except.error.injEq] at h
    subst h
    exact ⟨rfl, rfl, rfl, rfl, rfl, rfl, Or.inl rfl⟩
  · rw [if_neg hf] at h
    rcases hloop : elecLoop ship.engines.length
        (ship.engines.map (fun e => e.2.fuel_mass)) (requiredFuelLoss E eff)
        (requiredFuelLoss E eff / (ship.engines.length : ℝ)) 0
        (100 * ship.engines.length) with fuels | fuels
    · rw [hloop] at h
      simp only [Except.error.injEq] at h
      subst h
      exact ⟨rfl, rfl, rfl, rfl, rfl, rfl, Or.inr rfl⟩
    · rw [hloop] at h
      exact absurd h (by simp)

theorem requiredFuelLoss_elecE : requiredFuelLoss elecE 0.7 = 1 := by
  norm_num [requiredFuelLoss, numReactions, elecE, energy_fusion, mass_3He, mass_2H]

theorem numReactions_elecE : numReactions elecE 0.7 = (mass_3He + mass_2H)⁻¹ := by
  norm_num [numReactions, elecE, energy_fusion, mass_3He, mass_2H]

theorem shipC3_engines : shipC3.engines = [("main", ⟨1, 500⟩)] := by
  simp [shipC3, mkStarship, Starship.log_entry]

theorem shipC3_fuel : shipC3.fuel_mass = 1 := by
  simp [Starship.fuel_mass, shipC3_engines]

theorem shipC4_engines : shipC4.engines = [("main", ⟨10, 500⟩)] := by
  simp [shipC4, mkStarship, Starship.log_entry]

theorem shipC4_fuel : shipC4.fuel_mass = 10 := by
  simp [Starship.fuel_mass, shipC4_engines]

theorem elecLoop_C4_run : elecLoop 1 [10] 1 1 0 100 = .ok [9] := by
  rw [elecLoop.eq_def]
  norm_num
  rw [elecLoop.eq_def]
  norm_num

theorem genElec_shipC4 : shipC4.generate_electricity elecE 0.7 = .ok shipC4ok := by
  simp only [Starship.generate_electricity, requiredFuelLoss_elecE, shipC4_engines,
    shipC4_fuel]
  rw [if_neg (by norm_num)]
  simp only [List.map, List.length_cons, List.length_nil]
  norm_num [elecLoop_C4_run]
  simp only [Starship.withEngineFuels, shipC4_engines]
  simp [shipC4, shipC4ok, mkStarship, Starship.log_entry, Starship.fuel_mass,
    numReactions_elecE, Starship.mk.injEq]
  norm_num [numReactions, elecE, energy_fusion, mass_p, mass_4He, mass_3He, mass_2H]

/-- C3: the loop's "relative tolerance" compares the remaining deficit
against itself, so it never ends a run early: with a single engine holding
exactly the required fuel loss, every full-quota pass is skipped
(`engine.fuel_mass > quota` is false at equality), the halved quotas leave
a remainder of `required / 2^k` forever — far below `1e-6` of the required
loss after 20 passes — and the call still exhausts the `100 × engine count`
budget and raises StuckLoop. -/
theorem electricity_tolerance_bug :
    errKind (shipC3.generate_electricity elecE 0.7) = some ("StuckLoop") := by
  have hrun : ∃ fuels, elecLoop 1 [1] 1 1 0 100 = .error fuels := by
    rw [elecLoop.eq_def]
    norm_num
    simpa using elecLoop_stuck 99 1 one_pos
  obtain ⟨fuels, hf⟩ := hrun
  simp only [Starship.generate_electricity, requiredFuelLoss_elecE, shipC3_engines,
    shipC3_fuel]
  rw [if_neg (by norm_num)]
  simp only [List.map, List.length_cons, List.length_nil]
  norm_num
  rw [hf]
  rfl

/-- C4: on every successful call with positive energy and efficiency, the
payload gain is the drained fuel mass scaled by the fixed
`(mass_p + mass_4He) / (mass_3He + mass_2H)` ratio, the drained fuel mass is
exactly `num_reactions * (mass_3He + mass_2H)` with
`num_reactions = energy / (efficiency * 18.354 MeV)`, and payload + fuel
strictly decreases; the call raises InsufficientFuel — leaving the ship
unchanged — exactly when total fuel is below the required loss. -/
theorem electricity_mass_conservation :
    (∀ (ship : Starship) (E eff : ℝ) (s' : Starship), 0 < E → 0 < eff →
      ship.generate_electricity E eff = .ok s' →
      s'.payload_mass - ship.payload_mass
        = (ship.fuel_mass - s'.fuel_mass) * ((mass_p + mass_4He) / (mass_3He + mass_2H))
      ∧ ship.fuel_mass - s'.fuel_mass = requiredFuelLoss E eff
      ∧ s'.payload_mass + s'.fuel_mass < ship.payload_mass + ship.fuel_mass)
    ∧ (∀ (ship : Starship) (E eff : ℝ),
      ship.generate_electricity E eff = .error ⟨"InsufficientFuel", ship⟩
        ↔ ship.fuel_mass < requiredFuelLoss E eff) := by
  constructor
  · intro ship E eff s' hE heff h
    have hnum : 0 < numReactions E eff := by
      unfold numReactions energy_fusion
      positivity
    have hmass : (0 : ℝ) < mass_3He + mass_2H := by norm_num [mass_3He, mass_2H]
    have hreq : 0 < requiredFuelLoss E eff := by
      unfold requiredFuelLoss
      positivity
    obtain ⟨hpay, hfuel, -⟩ := generate_electricity_ok_state ship E eff s' hreq.le h
    refine ⟨?_, by rw [hfuel]; ring, ?_⟩
    · rw [hpay, hfuel]
      unfold requiredFuelLoss
      field_simp
      ring
    · rw [hpay, hfuel]
      unfold requiredFuelLoss
      have hlt : mass_p + mass_4He < mass_3He + mass_2H := by
        norm_num [mass_p, mass_4He, mass_3He, mass_2H]
      nlinarith
  · exact generate_electricity_insufficient

/-- C4 witness: generating `elecE` on a one-engine ship with fuel 10 drains
exactly 1 and adds the product masses to the payload. -/
theorem electricity_mass_conservation_witness :
    shipC4.generate_electricity elecE 0.7 = .ok shipC4ok
    ∧ shipC4ok.payload_mass - shipC4.payload_mass
      = (shipC4.fuel_mass - shipC4ok.fuel_mass) * ((mass_p + mass_4He) / (mass_3He + mass_2H))
    ∧ shipC4.fuel_mass - shipC4ok.fuel_mass = requiredFuelLoss elecE 0.7
    ∧ shipC4ok.payload_mass + shipC4ok.fuel_mass < shipC4.payload_mass + shipC4.fuel_mass :=
  ⟨genElec_shipC4,
    (electricity_mass_conservation.1 shipC4 elecE 0.7 shipC4ok (by
        norm_num [elecE, energy_fusion, mass_3He, mass_2H]) (by norm_num)
      genElec_shipC4).1,
    (electricity_mass_conservation.1 shipC4 elecE 0.7 shipC4ok (by
        norm_num [elecE, energy_fusion, mass_3He, mass_2H]) (by norm_num)
      genElec_shipC4).2.1,
    (electricity_mass_conservation.1 shipC4 elecE 0.7 shipC4ok (by
        norm_num [elecE, energy_fusion, mass_3He, mass_2H]) (by norm_num)
      genElec_shipC4).2.2⟩

/-! ## Starship maneuver lemmas -/

theorem log_entry_velocity (ship : Starship) (m : String) :
    (ship.log_entry m).velocity = ship.velocity := rfl

theorem log_entry_fuel (ship : Starship) (m : String) :
    (ship.log_entry m).fuel_mass = ship.fuel_mass := rfl

theorem log_entry_history_length (ship : Starship) (m : String) :
    (ship.log_entry m).history.length = ship.history.length + 1 := by
  simp [Starship.log_entry]

theorem log_entry_messages_length (ship : Starship) (m : String) :
    (ship.log_entry m).log_messages.length = ship.log_messages.length + 1 := by
  simp [Starship.log_entry]

theorem accelFinish_ok (s s' : Starship) (h : s.accelFinish = .ok s') :
    s' = s.log_entry ("Acceleration") ∧ |s.velocity / c| ≤ 0.5 := by
  unfold Starship.accelFinish at h
  by_cases hv : |s.velocity / c| > 0.5
  · rw [if_pos hv] at h
    exact absurd h (by simp)
  · rw [if_neg hv] at h
    simp only [Except.ok.injEq] at h
    exact ⟨h.symm, not_lt.1 hv⟩

theorem accelFinish_error (s : Starship) (e : ShipErr) (h : s.accelFinish = .error e) :
    e.ship = s ∧ e.kind = "RelativisticSpeed" ∧ |s.velocity / c| > 0.5 := by
  unfold Starship.accelFinish at h
  by_cases hv : |s.velocity / c| > 0.5
  · rw [if_pos hv] at h
    simp only [Except.error.injEq] at h
    subst h
    exact ⟨rfl, rfl, hv⟩
  · rw [if_neg hv] at h
    exact absurd h (by simp)

/-- Fields a successful `generate_electricity` never touches (no invariant on
the required loss needed). -/
theorem generate_electricity_ok_fields (ship : Starship) (E eff : ℝ) (s' : Starship)
    (h : ship.generate_electricity E eff = .ok s') :
    s'.position = ship.position ∧ s'.time = ship.time ∧ s'.velocity = ship.velocity
    ∧ s'.history = ship.history ∧ s'.log_messages = ship.log_messages
    ∧ s'.electrical_power = ship.electrical_power := by
  simp only [Starship.generate_electricity] at h
  by_cases hf : ship.fuel_mass < requiredFuelLoss E eff
  · rw [if_pos hf] at h
    exact absurd h (by simp)
  · rw [if_neg hf] at h
    rcases hloop : elecLoop ship.engines.length
        (ship.engines.map (fun e => e.2.fuel_mass)) (requiredFuelLoss E eff)
        (requiredFuelLoss E eff / (ship.engines.length : ℝ)) 0
        (100 * ship.engines.length) with fuels | fuels
    · rw [hloop] at h
      exact absurd h (by simp)
    · rw [hloop] at h
      simp only [Except.ok.injEq] at h
      subst h
      exact ⟨rfl, rfl, rfl, rfl, rfl, rfl⟩

theorem requiredFuelLoss_nonneg (E eff : ℝ) (hE : 0 ≤ E) (heff : 0 ≤ eff) :
    0 ≤ requiredFuelLoss E eff := by
  unfold requiredFuelLoss numReactions energy_fusion mass_3He mass_2H
  positivity

/-- Every successful `accelerate` passed the relativistic check and appended
exactly one log entry. -/
theorem accelerate_ok_facts (ship : Starship) (en : String) (tv : ℝ) (fm : Option ℝ)
    (dir a : ℝ) (ge : Bool) (s' : Starship)
    (h : ship.accelerate en tv fm dir a ge = .ok s') :
    |s'.velocity / c| ≤ 0.5
    ∧ s'.history.length = ship.history.length + 1
    ∧ s'.log_messages.length = ship.log_messages.length + 1 := by
  rcases hlook : ship.engines.lookup en with _ | eng
  · simp only [Starship.accelerate, hlook] at h
    exact absurd h (by simp)
  · rcases fm with _ | f
    · rcases hset : eng.set_target_delta_v (ship.velocity - tv) ship.total_mass
        with k | eng'
      · simp only [Starship.accelerate, hlook, hset] at h
        exact absurd h (by simp)
      · cases ge
        · simp only [Starship.accelerate, hlook, hset, Bool.false_eq_true, if_false] at h
          obtain ⟨rfl, hle⟩ := accelFinish_ok _ _ h
          refine ⟨?_, ?_, ?_⟩
          · rw [log_entry_velocity]
            exact hle
          · rw [log_entry_history_length]
            simp [Starship.setEngine]
          · rw [log_entry_messages_length]
            simp [Starship.setEngine]
        · simp only [Starship.accelerate, hlook, hset, if_true] at h
          rcases hgen : Starship.generate_electricity _ _ 0.7 with e3 | ship3
          · rw [hgen] at h
            exact absurd h (by simp)
          · rw [hgen] at h
            obtain ⟨-, -, -, hh, hm, -⟩ := generate_electricity_ok_fields _ _ _ _ hgen
            obtain ⟨rfl, hle⟩ := accelFinish_ok _ _ h
            refine ⟨?_, ?_, ?_⟩
            · rw [log_entry_velocity]
              exact hle
            · rw [log_entry_history_length, hh]
              simp [Starship.setEngine]
            · rw [log_entry_messages_length, hm]
              simp [Starship.setEngine]
    · rcases hburn : eng.burn_fuel f ship.total_mass with k | res
      · simp only [Starship.accelerate, hlook, hburn] at h
        exact absurd h (by simp)
      · simp only [Starship.accelerate, hlook, hburn] at h
        obtain ⟨rfl, hle⟩ := accelFinish_ok _ _ h
        refine ⟨?_, ?_, ?_⟩
        · rw [log_entry_velocity]
          exact hle
        · rw [log_entry_history_length]
          simp [Starship.setEngine]
        · rw [log_entry_messages_length]
          simp [Starship.setEngine]

/-- Every failed `accelerate` either leaves the log as it was; a
RelativisticSpeed failure moreover carries a state whose velocity really
exceeds 0.5 c. -/
theorem accelerate_error_facts (ship : Starship) (en : String) (tv : ℝ) (fm : Option ℝ)
    (dir a : ℝ) (ge : Bool) (e : ShipErr)
    (h : ship.accelerate en tv fm dir a ge = .error e) :
    (e.kind = "RelativisticSpeed" → |e.ship.velocity / c| > 0.5)
    ∧ e.ship.history = ship.history ∧ e.ship.log_messages = ship.log_messages := by
  rcases hlook : ship.engines.lookup en with _ | eng
  · simp only [Starship.accelerate, hlook] at h
    simp only [Except.error.injEq] at h
    subst h
    exact ⟨fun hk => absurd hk (by simp), rfl, rfl⟩
  · rcases fm with _ | f
    · rcases hset : eng.set_target_delta_v (ship.velocity - tv) ship.total_mass
        with k | eng'
      · simp only [Starship.accelerate, hlook, hset] at h
        simp only [Except.error.injEq] at h
        subst h
        have hk := set_target_delta_v_error_kind _ _ _ _ hset
        refine ⟨fun hc => ?_, rfl, rfl⟩
        rw [hk] at hc
        simp at hc
      · cases ge
        · simp only [Starship.accelerate, hlook, hset, Bool.false_eq_true, if_false] at h
          obtain ⟨hship, -, hv⟩ := accelFinish_error _ _ h
          rw [hship]
          exact ⟨fun _ => hv, by simp [Starship.setEngine], by simp [Starship.setEngine]⟩
        · simp only [Starship.accelerate, hlook, hset, if_true] at h
          rcases hgen : Starship.generate_electricity _ _ 0.7 with e3 | ship3
          · rw [hgen] at h
            simp only [Except.error.injEq] at h
            subst h
            obtain ⟨-, -, -, hh, hm, -, hkind⟩ :=
              generate_electricity_error_state _ _ _ _ hgen
            simp only [Starship.setEngine] at hh hm
            refine ⟨fun hc => ?_, by simpa using hh, by simpa using hm⟩
            rcases hkind with hk | hk <;> rw [hk] at hc <;> simp at hc
          · rw [hgen] at h
            obtain ⟨hship, -, hv⟩ := accelFinish_error _ _ h
            obtain ⟨-, -, -, hh, hm, -⟩ := generate_electricity_ok_fields _ _ _ _ hgen
            rw [hship]
            refine ⟨fun _ => hv, ?_, ?_⟩
            · rw [hh]
              simp [Starship.setEngine]
            · rw [hm]
              simp [Starship.setEngine]
    · rcases hburn : eng.burn_fuel f ship.total_mass with k | res
      · simp only [Starship.accelerate, hlook, hburn] at h
        simp only [Except.error.injEq] at h
        subst h
        have hk := burn_fuel_error_kind _ _ _ _ hburn
        refine ⟨fun hc => ?_, rfl, rfl⟩
        rw [hk] at hc
        simp at hc
      · simp only [Starship.accelerate, hlook, hburn] at h
        obtain ⟨hship, -, hv⟩ := accelFinish_error _ _ h
        rw [hship]
        exact ⟨fun _ => hv, by simp [Starship.setEngine], by simp [Starship.setEngine]⟩

/-- The state a successful `cruise` leaves. -/
theorem cruise_ok_state (ship : Starship) (d : ℝ) (ge : Bool) (s' : Starship)
    (h : ship.cruise d ge = .ok s') :
    ship.velocity ≠ 0
    ∧ s'.velocity = ship.velocity
    ∧ s'.position = ship.position + d * Real.sign ship.velocity
    ∧ s'.time = ship.time + |d / ship.velocity|
    ∧ s'.history.length = ship.history.length + 1
    ∧ s'.log_messages.length = ship.log_messages.length + 1 := by
  by_cases hv : ship.velocity = 0
  · simp only [Starship.cruise, if_pos hv] at h
    exact absurd h (by simp)
  · simp only [Starship.cruise, if_neg hv] at h
    cases ge
    · simp only [Bool.false_eq_true, if_false] at h
      simp only [Except.ok.injEq] at h
      subst h
      refine ⟨hv, rfl, rfl, rfl, ?_, ?_⟩
      · rw [log_entry_history_length]
      · rw [log_entry_messages_length]
    · simp only [if_true] at h
      rcases hgen : Starship.generate_electricity _ _ 0.7 with e2 | ship2
      · rw [hgen] at h
        exact absurd h (by simp)
      · rw [hgen] at h
        simp only [Except.ok.injEq] at h
        subst h
        obtain ⟨hpos, htime, hvel, hh, hm, -⟩ := generate_electricity_ok_fields _ _ _ _ hgen
        refine ⟨hv, ?_, ?_, ?_, ?_, ?_⟩
        · rw [log_entry_velocity, hvel]
        · rw [show (Starship.log_entry _ _).position = ship2.position from rfl, hpos]
        · rw [show (Starship.log_entry _ _).time = ship2.time from rfl, htime]
        · rw [log_entry_history_length, hh]
        · rw [log_entry_messages_length, hm]

/-- A failed `cruise` at zero velocity raises NotMoving carrying the ship
unchanged. -/
theorem cruise_notmoving (ship : Starship) (d : ℝ) (ge : Bool)
    (hv : ship.velocity = 0) :
    ship.cruise d ge = .error ⟨"NotMoving", ship⟩ := by
  simp only [Starship.cruise, if_pos hv]

/-- With electricity generation on, a successful `cruise` drains exactly the
fuel that `electrical_power * |d / velocity|` of energy requires. -/
theorem cruise_fuel (ship : Starship) (d : ℝ) (s' : Starship)
    (hpw : 0 ≤ ship.electrical_power) (h : ship.cruise d true = .ok s') :
    ship.fuel_mass - s'.fuel_mass
      = requiredFuelLoss (ship.electrical_power * |d / ship.velocity|) 0.7 := by
  by_cases hv : ship.velocity = 0
  · simp only [Starship.cruise, if_pos hv] at h
    exact absurd h (by simp)
  · simp only [Starship.cruise, if_neg hv, if_true] at h
    rcases hgen : Starship.generate_electricity _ _ 0.7 with e2 | ship2
    · rw [hgen] at h
      exact absurd h (by simp)
    · rw [hgen] at h
      simp only [Except.ok.injEq] at h
      subst h
      have hreq : 0 ≤ requiredFuelLoss (ship.electrical_power * |d / ship.velocity|) 0.7 :=
        requiredFuelLoss_nonneg _ _ (mul_nonneg hpw (abs_nonneg _)) (by norm_num)
      obtain ⟨-, hfuel, -⟩ := generate_electricity_ok_state _ _ _ _ hreq hgen
      rw [log_entry_fuel, hfuel]
      show (ship.fuel_mass : ℝ) - (ship.fuel_mass - _) = _
      ring

/-- The state a successful `wait` leaves. -/
theorem wait_ok_state (ship : Starship) (t : ℝ) (ge : Bool) (s' : Starship)
    (h : ship.wait t ge = .ok s') :
    s'.velocity = ship.velocity
    ∧ s'.history.length = ship.history.length + 1
    ∧ s'.log_messages.length = ship.log_messages.length + 1 := by
  simp only [Starship.wait] at h
  cases ge
  · simp only [Bool.false_eq_true, if_false] at h
    simp only [Except.ok.injEq] at h
    subst h
    exact ⟨rfl, by rw [log_entry_history_length], by rw [log_entry_messages_length]⟩
  · simp only [if_true] at h
    rcases hgen : Starship.generate_electricity _ _ 0.7 with e2 | ship2
    · rw [hgen] at h
      exact absurd h (by simp)
    · rw [hgen] at h
      simp only [Except.ok.injEq] at h
      subst h
      obtain ⟨-, -, hvel, hh, hm, -⟩ := generate_electricity_ok_fields _ _ _ _ hgen
      exact ⟨by rw [log_entry_velocity, hvel],
        by rw [log_entry_history_length, hh],
        by rw [log_entry_messages_length, hm]⟩

/-- A failed `cruise` leaves the log as it was. -/
theorem cruise_error_facts (ship : Starship) (d : ℝ) (ge : Bool) (e : ShipErr)
    (h : ship.cruise d ge = .error e) :
    e.ship.history = ship.history ∧ e.ship.log_messages = ship.log_messages := by
  by_cases hv : ship.velocity = 0
  · rw [cruise_notmoving ship d ge hv] at h
    simp only [Except.error.injEq] at h
    subst h
    exact ⟨rfl, rfl⟩
  · simp only [Starship.cruise, if_neg hv] at h
    cases ge
    · simp only [Bool.false_eq_true, if_false] at h
      exact absurd h (by simp)
    · simp only [if_true] at h
      rcases hgen : Starship.generate_electricity _ _ 0.7 with e2 | ship2
      · rw [hgen] at h
        simp only [Except.error.injEq] at h
        subst h
        obtain ⟨-, -, -, hh, hm, -, -⟩ := generate_electricity_error_state _ _ _ _ hgen
        exact ⟨hh, hm⟩
      · rw [hgen] at h
        exact absurd h (by simp)

/-- A failed `wait` leaves the log as it was. -/
theorem wait_error_facts (ship : Starship) (t : ℝ) (ge : Bool) (e : ShipErr)
    (h : ship.wait t ge = .error e) :
    e.ship.history = ship.history ∧ e.ship.log_messages = ship.log_messages := by
  simp only [Starship.wait] at h
  cases ge
  · simp only [Bool.false_eq_true, if_false] at h
    exact absurd h (by simp)
  · simp only [if_true] at h
    rcases hgen : Starship.generate_electricity _ _ 0.7 with e2 | ship2
    · rw [hgen] at h
      simp only [Except.error.injEq] at h
      subst h
      obtain ⟨-, -, -, hh, hm, -, -⟩ := generate_electricity_error_state _ _ _ _ hgen
      exact ⟨hh, hm⟩
    · rw [hgen] at h
      exact absurd h (by simp)

/-- C7: the kinematics of a successful fuel-driven `accelerate`: with
`delta_v` the named engine's `burn_fuel` result at the ship's total mass,
the maneuver advances time by `|delta_v| / acceleration`, changes velocity
by `direction * delta_v`, and changes position by
`v0 * delta_t + direction * 0.5 * acceleration * delta_t^2` evaluated at the
pre-burn velocity `v0`. -/
theorem fuel_driven_accelerate (ship : Starship) (en : String) (tv f dir a : ℝ)
    (ge : Bool) (eng : Engine) (dv : ℝ) (eng' : Engine) (s' : Starship)
    (hlook : ship.engines.lookup en = some eng)
    (hburn : eng.burn_fuel f ship.total_mass = .ok (dv, eng'))
    (h : ship.accelerate en tv (some f) dir a ge = .ok s') :
    s'.time = ship.time + |dv| / a
    ∧ s'.velocity = ship.velocity + dir * dv
    ∧ s'.position = ship.position
      + (ship.velocity * (|dv| / a) + dir * 0.5 * a * (|dv| / a) ^ 2) := by
  simp only [Starship.accelerate, hlook, hburn] at h
  obtain ⟨rfl, -⟩ := accelFinish_ok _ _ h
  refine ⟨?_, ?_, ?_⟩
  · show (_ : Starship).time = _
    simp [Starship.log_entry, Starship.setEngine]
  · show (_ : Starship).velocity = _
    simp [Starship.log_entry, Starship.setEngine]
  · show (_ : Starship).position = _
    simp [Starship.log_entry, Starship.setEngine]

/-- A completed sailing loop logs exactly one entry per processed sample
(`sailSteps` of the sample list). -/
theorem sailLoop_ok_logs (t r0 ip : ℝ) (ge : Bool) :
    ∀ (rest : List (ℝ × ℝ × ℝ)) (prev : ℝ × ℝ × ℝ) (ship s' : Starship),
    Starship.sailLoop t r0 ip ge prev rest ship = .ok s' →
    s'.history.length = ship.history.length + sailSteps t r0 prev rest
    ∧ s'.log_messages.length = ship.log_messages.length + sailSteps t r0 prev rest := by
  intro rest
  induction rest with
  | nil =>
    intro prev ship s' h
    simp only [Starship.sailLoop, Except.ok.injEq] at h
    subst h
    simp [sailSteps]
  | cons cur rest' ih =>
    intro prev ship s' h
    simp only [Starship.sailLoop] at h
    by_cases h1 : t = 0 ∧ Real.sign (cur.2.2 / c) ≠ Real.sign prev.2.2
    · rw [if_pos h1] at h
      simp only [Except.ok.injEq] at h
      subst h
      rw [sailSteps, if_pos h1, log_entry_history_length, log_entry_messages_length]
      simp
    · rw [if_neg h1] at h
      by_cases h2 : Real.sign r0 = Real.sign (cur.2.2 / c) ∧ |cur.2.2 / c| > |t / c|
      · rw [if_pos h2] at h
        simp only [Except.ok.injEq] at h
        subst h
        rw [sailSteps, if_neg h1, if_pos h2, log_entry_history_length,
          log_entry_messages_length]
        simp
      · rw [if_neg h2] at h
        rw [sailSteps, if_neg h1, if_neg h2]
        cases ge
        · simp only [Bool.false_eq_true, if_false] at h
          obtain ⟨hh, hm⟩ := ih cur _ s' h
          rw [hh, hm, log_entry_history_length, log_entry_messages_length]
          constructor <;> simp <;> omega
        · simp only [if_true] at h
          rcases hgen : Starship.generate_electricity _ _ 0.7 with e3 | ship3
          · rw [hgen] at h
            exact absurd h (by simp)
          · rw [hgen] at h
            obtain ⟨hh, hm⟩ := ih cur _ s' h
            obtain ⟨-, -, -, hh3, hm3, -⟩ := generate_electricity_ok_fields _ _ _ _ hgen
            rw [hh, hm, hh3, hm3, log_entry_history_length, log_entry_messages_length]
            constructor <;> simp <;> omega

/-- An aborted sailing loop has logged some number of entries (one per sample
processed before the raise). -/
theorem sailLoop_error_logs (t r0 ip : ℝ) (ge : Bool) :
    ∀ (rest : List (ℝ × ℝ × ℝ)) (prev : ℝ × ℝ × ℝ) (ship : Starship) (e : ShipErr),
    Starship.sailLoop t r0 ip ge prev rest ship = .error e →
    ∃ k, e.ship.history.length = ship.history.length + k
    ∧ e.ship.log_messages.length = ship.log_messages.length + k := by
  intro rest
  induction rest with
  | nil =>
    intro prev ship e h
    simp only [Starship.sailLoop] at h
    exact absurd h (by simp)
  | cons cur rest' ih =>
    intro prev ship e h
    simp only [Starship.sailLoop] at h
    by_cases h1 : t = 0 ∧ Real.sign (cur.2.2 / c) ≠ Real.sign prev.2.2
    · rw [if_pos h1] at h
      exact absurd h (by simp)
    · rw [if_neg h1] at h
      by_cases h2 : Real.sign r0 = Real.sign (cur.2.2 / c) ∧ |cur.2.2 / c| > |t / c|
      · rw [if_pos h2] at h
        exact absurd h (by simp)
      · rw [if_neg h2] at h
        cases ge
        · simp only [Bool.false_eq_true, if_false] at h
          obtain ⟨k, hh, hm⟩ := ih cur _ e h
          rw [log_entry_history_length] at hh
          rw [log_entry_messages_length] at hm
          exact ⟨k + 1, by rw [hh]; simp <;> omega, by rw [hm]; simp <;> omega⟩
        · simp only [if_true] at h
          rcases hgen : Starship.generate_electricity _ _ 0.7 with e3 | ship3
          · rw [hgen] at h
            simp only [Except.error.injEq] at h
            subst h
            obtain ⟨-, -, -, hh3, hm3, -, -⟩ := generate_electricity_error_state _ _ _ _ hgen
            refine ⟨1, ?_, ?_⟩
            · rw [hh3, log_entry_history_length]
            · rw [hm3, log_entry_messages_length]
          · rw [hgen] at h
            obtain ⟨k, hh, hm⟩ := ih cur _ e h
            obtain ⟨-, -, -, hh3, hm3, -⟩ := generate_electricity_ok_fields _ _ _ _ hgen
            rw [hh3, log_entry_history_length] at hh
            rw [hm3, log_entry_messages_length] at hm
            exact ⟨k + 1, by rw [hh]; simp <;> omega, by rw [hm]; simp <;> omega⟩

/-- A completed swimming loop logs exactly one entry per sample step. -/
theorem swimLoop_ok_logs (ge : Bool) :
    ∀ (rest : List (ℝ × ℝ × ℝ)) (prev : ℝ × ℝ × ℝ) (ship s' : Starship),
    Starship.swimLoop ge prev rest ship = .ok s' →
    s'.history.length = ship.history.length + rest.length
    ∧ s'.log_messages.length = ship.log_messages.length + rest.length := by
  intro rest
  induction rest with
  | nil =>
    intro prev ship s' h
    simp only [Starship.swimLoop, Except.ok.injEq] at h
    subst h
    simp
  | cons cur rest' ih =>
    intro prev ship s' h
    simp only [Starship.swimLoop] at h
    cases ge
    · simp only [Bool.false_eq_true, if_false] at h
      obtain ⟨hh, hm⟩ := ih cur _ s' h
      refine ⟨?_, ?_⟩
      · rw [hh, log_entry_history_length]
        simp <;> omega
      · rw [hm, log_entry_messages_length]
        simp <;> omega
    · simp only [if_true] at h
      rcases hgen : Starship.generate_electricity _ _ 0.7 with e3 | ship3
      · rw [hgen] at h
        exact absurd h (by simp)
      · rw [hgen] at h
        obtain ⟨hh, hm⟩ := ih cur _ s' h
        obtain ⟨-, -, -, hh3, hm3, -⟩ := generate_electricity_ok_fields _ _ _ _ hgen
        refine ⟨?_, ?_⟩
        · rw [hh, hh3, log_entry_history_length]
          simp <;> omega
        · rw [hm, hm3, log_entry_messages_length]
          simp <;> omega

/-- An aborted swimming loop has logged one entry per processed sample. -/
theorem swimLoop_error_logs (ge : Bool) :
    ∀ (rest : List (ℝ × ℝ × ℝ)) (prev : ℝ × ℝ × ℝ) (ship : Starship) (e : ShipErr),
    Starship.swimLoop ge prev rest ship = .error e →
    ∃ k, e.ship.history.length = ship.history.length + k
    ∧ e.ship.log_messages.length = ship.log_messages.length + k := by
  intro rest
  induction rest with
  | nil =>
    intro prev ship e h
    simp only [Starship.swimLoop] at h
    exact absurd h (by simp)
  | cons cur rest' ih =>
    intro prev ship e h
    simp only [Starship.swimLoop] at h
    cases ge
    · simp only [Bool.false_eq_true, if_false] at h
      obtain ⟨k, hh, hm⟩ := ih cur _ e h
      rw [log_entry_history_length] at hh
      rw [log_entry_messages_length] at hm
      exact ⟨k + 1, by rw [hh]; simp <;> omega, by rw [hm]; simp <;> omega⟩
    · simp only [if_true] at h
      rcases hgen : Starship.generate_electricity _ _ 0.7 with e3 | ship3
      · rw [hgen] at h
        simp only [Except.error.injEq] at h
        subst h
        obtain ⟨-, -, -, hh3, hm3, -, -⟩ := generate_electricity_error_state _ _ _ _ hgen
        refine ⟨1, ?_, ?_⟩
        · rw [hh3, log_entry_history_length]
        · rw [hm3, log_entry_messages_length]
      · rw [hgen] at h
        obtain ⟨k, hh, hm⟩ := ih cur _ e h
        obtain ⟨-, -, -, hh3, hm3, -⟩ := generate_electricity_ok_fields _ _ _ _ hgen
        rw [hh3, log_entry_history_length] at hh
        rw [hm3, log_entry_messages_length] at hm
        exact ⟨k + 1, by rw [hh]; simp <;> omega, by rw [hm]; simp <;> omega⟩

/-- A successful `sailCore` over a non-empty sample list logs one entry per
processed sample plus the final summary entry. -/
theorem sailCore_ok_count (ship : Starship) (tv star maxv : ℝ) (ge : Bool)
    (first : ℝ × ℝ × ℝ) (rest : List (ℝ × ℝ × ℝ)) (s' : Starship)
    (h : ship.sailCore tv star maxv ge (first :: rest) = .ok s') :
    s'.history.length
      = ship.history.length + sailSteps tv (ship.position - star) first rest + 1
    ∧ s'.log_messages.length
      = ship.log_messages.length + sailSteps tv (ship.position - star) first rest + 1 := by
  simp only [Starship.sailCore] at h
  split at h
  · exact absurd h (by simp)
  · rcases hloop : Starship.sailLoop tv (ship.position - star) ship.position ge
        first rest ship with e | shipL
    · rw [hloop] at h
      exact absurd h (by simp)
    · rw [hloop] at h
      simp only [Except.ok.injEq] at h
      subst h
      obtain ⟨hh, hm⟩ := sailLoop_ok_logs _ _ _ _ _ _ _ _ hloop
      by_cases h0 : tv = 0
      · rw [if_pos h0, log_entry_history_length, log_entry_messages_length]
        constructor <;> simp <;> omega
      · rw [if_neg h0, log_entry_history_length, log_entry_messages_length]
        constructor <;> omega

/-- Any successful `sailCore` grows both logs by the same amount. -/
theorem sailCore_ok_logs_any (ship : Starship) (tv star maxv : ℝ) (ge : Bool)
    (smp : List (ℝ × ℝ × ℝ)) (s' : Starship)
    (h : ship.sailCore tv star maxv ge smp = .ok s') :
    ∃ k, s'.history.length = ship.history.length + k
    ∧ s'.log_messages.length = ship.log_messages.length + k := by
  rcases smp with _ | ⟨first, rest⟩
  · simp only [Starship.sailCore] at h
    split at h
    · exact absurd h (by simp)
    · simp only [Except.ok.injEq] at h
      subst h
      refine ⟨1, ?_, ?_⟩ <;> split <;>
        simp [log_entry_history_length, log_entry_messages_length]
  · simp only [Starship.sailCore] at h
    split at h
    · exact absurd h (by simp)
    · rcases hloop : Starship.sailLoop tv (ship.position - star) ship.position ge
          first rest ship with e | shipL
      · rw [hloop] at h
        exact absurd h (by simp)
      · rw [hloop] at h
        simp only [Except.ok.injEq] at h
        subst h
        obtain ⟨hh, hm⟩ := sailLoop_ok_logs _ _ _ _ _ _ _ _ hloop
        refine ⟨sailSteps tv (ship.position - star) first rest + 1, ?_, ?_⟩ <;> split <;>
          simp [log_entry_history_length, log_entry_messages_length, hh, hm] <;> omega

/-- Any failed `sailCore` grows both logs by the same amount. -/
theorem sailCore_error_logs (ship : Starship) (tv star maxv : ℝ) (ge : Bool)
    (smp : List (ℝ × ℝ × ℝ)) (e : ShipErr)
    (h : ship.sailCore tv star maxv ge smp = .error e) :
    ∃ k, e.ship.history.length = ship.history.length + k
    ∧ e.ship.log_messages.length = ship.log_messages.length + k := by
  rcases smp with _ | ⟨first, rest⟩
  · simp only [Starship.sailCore] at h
    split at h
    · simp only [Except.error.injEq] at h
      subst h
      exact ⟨0, rfl, rfl⟩
    · exact absurd h (by simp)
  · simp only [Starship.sailCore] at h
    split at h
    · simp only [Except.error.injEq] at h
      subst h
      exact ⟨0, rfl, rfl⟩
    · rcases hloop : Starship.sailLoop tv (ship.position - star) ship.position ge
          first rest ship with e2 | shipL
      · rw [hloop] at h
        simp only [Except.error.injEq] at h
        subst h
        exact sailLoop_error_logs _ _ _ _ _ _ _ _ hloop
      · rw [hloop] at h
        exact absurd h (by simp)

/-- A successful zero-target `sailCore` ends with velocity exactly zero. -/
theorem sailCore_zero_velocity (ship : Starship) (star maxv : ℝ) (ge : Bool)
    (smp : List (ℝ × ℝ × ℝ)) (s' : Starship)
    (h : ship.sailCore 0 star maxv ge smp = .ok s') : s'.velocity = 0 := by
  rcases smp with _ | ⟨first, rest⟩
  · simp only [Starship.sailCore] at h
    split at h
    · exact absurd h (by simp)
    · simp only [if_pos rfl, Except.ok.injEq] at h
      subst h
      simp [Starship.log_entry]
  · simp only [Starship.sailCore] at h
    split at h
    · exact absurd h (by simp)
    · rcases hloop : Starship.sailLoop 0 (ship.position - star) ship.position ge
          first rest ship with e | shipL
      · rw [hloop] at h
        exact absurd h (by simp)
      · rw [hloop] at h
        simp only [if_pos rfl, Except.ok.injEq] at h
        subst h
        simp [Starship.log_entry]

/-- A successful `sail` with an explicit target logs one entry per processed
sample plus the final summary entry. -/
theorem sail_ok_count (ship : Starship) (tv star : ℝ) (ge : Bool)
    (first : ℝ × ℝ × ℝ) (rest : List (ℝ × ℝ × ℝ)) (s' : Starship)
    (h : ship.sail (some tv) star ge (first :: rest) = .ok s') :
    s'.history.length
      = ship.history.length + sailSteps tv (ship.position - star) first rest + 1
    ∧ s'.log_messages.length
      = ship.log_messages.length + sailSteps tv (ship.position - star) first rest + 1 := by
  rcases hsl : ship.solar_sail with _ | sl
  · simp only [Starship.sail, hsl] at h
    exact absurd h (by simp)
  · simp only [Starship.sail, hsl] at h
    exact sailCore_ok_count _ _ _ _ _ _ _ _ h

/-- Any successful `sail` grows both logs by the same amount. -/
theorem sail_ok_logs_any (ship : Starship) (tv : Option ℝ) (star : ℝ) (ge : Bool)
    (smp : List (ℝ × ℝ × ℝ)) (s' : Starship)
    (h : ship.sail tv star ge smp = .ok s') :
    ∃ k, s'.history.length = ship.history.length + k
    ∧ s'.log_messages.length = ship.log_messages.length + k := by
  rcases hsl : ship.solar_sail with _ | sl
  · simp only [Starship.sail, hsl] at h
    exact absurd h (by simp)
  · simp only [Starship.sail, hsl] at h
    rcases tv with _ | tvv
    · by_cases hsgn : Real.sign (ship.position - star) = -1 * Real.sign (ship.velocity / c)
      · rw [if_pos hsgn] at h
        exact sailCore_ok_logs_any _ _ _ _ _ _ _ h
      · rw [if_neg hsgn] at h
        exact sailCore_ok_logs_any _ _ _ _ _ _ _ h
    · exact sailCore_ok_logs_any _ _ _ _ _ _ _ h

/-- Any failed `sail` grows both logs by the same amount. -/
theorem sail_error_logs (ship : Starship) (tv : Option ℝ) (star : ℝ) (ge : Bool)
    (smp : List (ℝ × ℝ × ℝ)) (e : ShipErr)
    (h : ship.sail tv star ge smp = .error e) :
    ∃ k, e.ship.history.length = ship.history.length + k
    ∧ e.ship.log_messages.length = ship.log_messages.length + k := by
  rcases hsl : ship.solar_sail with _ | sl
  · simp only [Starship.sail, hsl] at h
    simp only [Except.error.injEq] at h
    subst h
    exact ⟨0, rfl, rfl⟩
  · simp only [Starship.sail, hsl] at h
    rcases tv with _ | tvv
    · by_cases hsgn : Real.sign (ship.position - star) = -1 * Real.sign (ship.velocity / c)
      · rw [if_pos hsgn] at h
        exact sailCore_error_logs _ _ _ _ _ _ _ h
      · rw [if_neg hsgn] at h
        exact sailCore_error_logs _ _ _ _ _ _ _ h
    · exact sailCore_error_logs _ _ _ _ _ _ _ h

/-- A successful `swim` logs one entry per sample step plus the final
summary entry. -/
theorem swim_ok_count (ship : Starship) (ge : Bool) (first : ℝ × ℝ × ℝ)
    (rest : List (ℝ × ℝ × ℝ)) (s' : Starship)
    (h : ship.swim ge (first :: rest) = .ok s') :
    s'.history.length = ship.history.length + rest.length + 1
    ∧ s'.log_messages.length = ship.log_messages.length + rest.length + 1 := by
  rcases hsw : ship.swimmer with _ | sw
  · simp only [Starship.swim, hsw] at h
    exact absurd h (by simp)
  · simp only [Starship.swim, hsw] at h
    rcases hloop : Starship.swimLoop ge first rest ship with e | shipL
    · rw [hloop] at h
      exact absurd h (by simp)
    · rw [hloop] at h
      simp only [Except.ok.injEq] at h
      subst h
      obtain ⟨hh, hm⟩ := swimLoop_ok_logs _ _ _ _ _ hloop
      rw [log_entry_history_length, log_entry_messages_length, hh, hm]
      exact ⟨rfl, rfl⟩

/-- Any successful `swim` grows both logs by the same amount. -/
theorem swim_ok_logs_any (ship : Starship) (ge : Bool) (smp : List (ℝ × ℝ × ℝ))
    (s' : Starship) (h : ship.swim ge smp = .ok s') :
    ∃ k, s'.history.length = ship.history.length + k
    ∧ s'.log_messages.length = ship.log_messages.length + k := by
  rcases smp with _ | ⟨first, rest⟩
  · rcases hsw : ship.swimmer with _ | sw
    · simp only [Starship.swim, hsw] at h
      exact absurd h (by simp)
    · simp only [Starship.swim, hsw] at h
      simp only [Except.ok.injEq] at h
      subst h
      exact ⟨1, log_entry_history_length _ _, log_entry_messages_length _ _⟩
  · obtain ⟨hh, hm⟩ := swim_ok_count _ _ _ _ _ h
    exact ⟨rest.length + 1, by omega, by omega⟩

/-- Any failed `swim` grows both logs by the same amount. -/
theorem swim_error_logs (ship : Starship) (ge : Bool) (smp : List (ℝ × ℝ × ℝ))
    (e : ShipErr) (h : ship.swim ge smp = .error e) :
    ∃ k, e.ship.history.length = ship.history.length + k
    ∧ e.ship.log_messages.length = ship.log_messages.length + k := by
  rcases hsw : ship.swimmer with _ | sw
  · simp only [Starship.swim, hsw] at h
    simp only [Except.error.injEq] at h
    subst h
    exact ⟨0, rfl, rfl⟩
  · rcases smp with _ | ⟨first, rest⟩
    · simp only [Starship.swim, hsw] at h
      exact absurd h (by simp)
    · simp only [Starship.swim, hsw] at h
      rcases hloop : Starship.swimLoop ge first rest ship with e2 | shipL
      · rw [hloop] at h
        simp only [Except.error.injEq] at h
        subst h
        exact swimLoop_error_logs _ _ _ _ _ hloop
      · rw [hloop] at h
        exact absurd h (by simp)

theorem mkStarship_logs (p : ℝ) (eng : List (String × Engine)) (v pos t dd pw : ℝ)
    (ss : Option SolarSail) (sw : Option Swimmer) :
    (mkStarship p eng v pos t dd pw ss sw).history.length = 1
    ∧ (mkStarship p eng v pos t dd pw ss sw).log_messages = [""] := by
  simp [mkStarship, Starship.log_entry]

/-- One maneuver call — successful or raising — keeps the two log sequences
the same length. -/
theorem runManeuver_balanced (ship : Starship) (mv : Maneuver)
    (hb : balancedLogs ship) : balancedLogs (runManeuver ship mv) := by
  unfold balancedLogs at hb ⊢
  cases mv with
  | accelerate en tv fm dir a ge =>
    rcases hres : ship.accelerate en tv fm dir a ge with e | s
    · simp only [runManeuver, hres]
      obtain ⟨-, hh, hm⟩ := accelerate_error_facts _ _ _ _ _ _ _ _ hres
      rw [hh, hm, hb]
    · simp only [runManeuver, hres]
      obtain ⟨-, hh, hm⟩ := accelerate_ok_facts _ _ _ _ _ _ _ _ hres
      omega
  | cruise d ge =>
    rcases hres : ship.cruise d ge with e | s
    · simp only [runManeuver, hres]
      obtain ⟨hh, hm⟩ := cruise_error_facts _ _ _ _ hres
      rw [hh, hm, hb]
    · simp only [runManeuver, hres]
      obtain ⟨-, -, -, -, hh, hm⟩ := cruise_ok_state _ _ _ _ hres
      omega
  | wait t ge =>
    rcases hres : ship.wait t ge with e | s
    · simp only [runManeuver, hres]
      obtain ⟨hh, hm⟩ := wait_error_facts _ _ _ _ hres
      rw [hh, hm, hb]
    · simp only [runManeuver, hres]
      obtain ⟨-, hh, hm⟩ := wait_ok_state _ _ _ _ hres
      omega
  | generate E eff =>
    rcases hres : ship.generate_electricity E eff with e | s
    · simp only [runManeuver, hres]
      obtain ⟨-, -, -, hh, hm, -, -⟩ := generate_electricity_error_state _ _ _ _ hres
      rw [hh, hm, hb]
    · simp only [runManeuver, hres]
      obtain ⟨-, -, -, hh, hm, -⟩ := generate_electricity_ok_fields _ _ _ _ hres
      rw [hh, hm, hb]
  | sail tv star ge smp =>
    rcases hres : ship.sail tv star ge smp with e | s
    · simp only [runManeuver, hres]
      obtain ⟨k, hh, hm⟩ := sail_error_logs _ _ _ _ _ _ hres
      omega
    · simp only [runManeuver, hres]
      obtain ⟨k, hh, hm⟩ := sail_ok_logs_any _ _ _ _ _ _ hres
      omega
  | swim ge smp =>
    rcases hres : ship.swim ge smp with e | s
    · simp only [runManeuver, hres]
      obtain ⟨k, hh, hm⟩ := swim_error_logs _ _ _ _ hres
      omega
    · simp only [runManeuver, hres]
      obtain ⟨k, hh, hm⟩ := swim_ok_logs_any _ _ _ _ hres
      omega

theorem foldl_balanced (ms : List Maneuver) : ∀ ship : Starship, balancedLogs ship →
    balancedLogs (ms.foldl runManeuver ship) := by
  induction ms with
  | nil => exact fun ship hb => hb
  | cons mv rest ih =>
    intro ship hb
    rw [List.foldl_cons]
    exact ih _ (runManeuver_balanced ship mv hb)

theorem accelFinish_ok_of (s : Starship) (h : |s.velocity / c| ≤ 0.5) :
    s.accelFinish = .ok (s.log_entry ("Acceleration")) := by
  unfold Starship.accelFinish
  rw [if_neg (not_lt.2 h)]

theorem small_vel_bound (x : ℝ) (h0 : 0 ≤ x) (h1 : x ≤ 1 / 2) : |x / c| ≤ 0.5 := by
  have hc : (1 : ℝ) ≤ c := by norm_num [c]
  have h2 : x / c ≤ x := div_le_self h0 hc
  have h3 : 0 ≤ x / c := div_nonneg h0 (by norm_num [c])
  rw [abs_of_nonneg h3]
  linarith

/-! ## Concrete maneuver runs -/

theorem shipMoving_velocity : shipMoving.velocity = 1 := rfl

theorem cruise_shipMoving : shipMoving.cruise 2 false = .ok cruiseResult := by
  simp only [Starship.cruise, shipMoving_velocity, one_ne_zero, if_false,
    Bool.false_eq_true]
  simp [Starship.log_entry, shipMoving, mkStarship, cruiseResult, Real.sign_one,
    Starship.fuel_mass, Starship.mk.injEq]

theorem shipAcc_lookup : shipAcc.engines.lookup "main" = some ⟨1, 1⟩ := rfl

theorem shipAcc_total : shipAcc.total_mass = 2 := by
  simp [Starship.total_mass, Starship.fuel_mass, shipAcc, mkStarship, Starship.log_entry]
  norm_num

theorem burn_shipAcc :
    Engine.burn_fuel ⟨1, 1⟩ 1 shipAcc.total_mass = .ok (Real.log (3 / 2), ⟨0, 1⟩) := by
  rw [shipAcc_total, burn_fuel_ok ⟨1, 1⟩ 1 2 (by norm_num)]
  norm_num

theorem accelerate_shipAcc :
    shipAcc.accelerate "main" 0 (some 1) 1 1 false = .ok accResult := by
  have hlogpos : 0 ≤ Real.log (3 / 2) := Real.log_nonneg (by norm_num)
  have hlog : Real.log (3 / 2) ≤ 1 / 2 := by
    have := Real.log_le_sub_one_of_pos (by norm_num : (0 : ℝ) < 3 / 2)
    linarith
  simp only [Starship.accelerate, shipAcc_lookup, burn_shipAcc]
  rw [accelFinish_ok_of _ (by
    show |(_ : ℝ) / c| ≤ 0.5
    simp only [Starship.setEngine, shipAcc, mkStarship, Starship.log_entry,
      zero_add, one_mul]
    exact small_vel_bound _ hlogpos hlog)]
  simp [Starship.log_entry, Starship.setEngine, shipAcc, mkStarship, accResult,
    Starship.fuel_mass, Starship.mk.injEq, abs_of_nonneg hlogpos]

theorem swim_shipC5 : shipC5.swim false samplesC5 = .ok swimResultC5 := by
  have hsw : shipC5.swimmer = some ⟨1, 1, 1, 1⟩ := rfl
  simp only [samplesC5, Starship.swim, hsw, Starship.swimLoop]
  simp [Starship.log_entry, shipC5, mkStarship, swimResultC5, Starship.fuel_mass,
    Starship.mk.injEq]

theorem sail_shipSailing : shipSailing.sail (some 0) 0 false [] = .ok sailResult := by
  have hsl : shipSailing.solar_sail = some ⟨1, 1, 0.9, 1⟩ := rfl
  have hgate0 : ∀ x : ℝ, ¬ (|(0 : ℝ) / c| > |x / c|) := fun x => by
    rw [zero_div, abs_zero]
    exact not_lt.2 (abs_nonneg _)
  simp only [Starship.sail, hsl, Starship.sailCore]
  rw [if_neg (hgate0 _)]
  simp [Starship.log_entry, shipSailing, mkStarship, sailResult, Starship.fuel_mass,
    Starship.mk.injEq]

/-! ## Claim theorems C5, C6, C8, C9, C10 -/

/-- C5 counterexample: `swim` performs no relativistic-speed check — a swim
whose solver samples end at 0.9 c completes successfully and leaves the ship
at `|velocity| / c = 0.9 > 0.5` without any RelativisticSpeed failure. -/
theorem relativistic_check_cex :
    shipC5.swim false samplesC5 = .ok swimResultC5
    ∧ |swimResultC5.velocity / c| > 0.5 :=
  ⟨swim_shipC5, by
    have h1 : swimResultC5.velocity / c = 0.9 := by norm_num [swimResultC5, c]
    rw [h1, abs_of_pos] <;> norm_num⟩

/-- C5 amended: only `accelerate` enforces the 0.5 c cap — after a successful
`accelerate` the ship satisfies `|velocity| / c ≤ 0.5`, and a
RelativisticSpeed failure really carries a post-maneuver state above 0.5 c;
`cruise` and `wait` never change the velocity (so they preserve the bound but
can never trigger it); `sail` and `swim` perform no check and may complete
above 0.5 c (see the counterexample). -/
theorem relativistic_check_amended :
    (∀ (ship : Starship) (en : String) (tv : ℝ) (fm : Option ℝ) (dir a : ℝ)
      (ge : Bool) (s' : Starship),
      ship.accelerate en tv fm dir a ge = .ok s' → |s'.velocity / c| ≤ 0.5)
    ∧ (∀ (ship : Starship) (en : String) (tv : ℝ) (fm : Option ℝ) (dir a : ℝ)
      (ge : Bool) (e : ShipErr),
      ship.accelerate en tv fm dir a ge = .error e →
      e.kind = "RelativisticSpeed" → |e.ship.velocity / c| > 0.5)
    ∧ (∀ (ship : Starship) (d : ℝ) (ge : Bool) (s' : Starship),
      ship.cruise d ge = .ok s' → s'.velocity = ship.velocity)
    ∧ (∀ (ship : Starship) (t : ℝ) (ge : Bool) (s' : Starship),
      ship.wait t ge = .ok s' → s'.velocity = ship.velocity) :=
  ⟨fun ship en tv fm dir a ge s' h => (accelerate_ok_facts ship en tv fm dir a ge s' h).1,
    fun ship en tv fm dir a ge e h hk =>
      (accelerate_error_facts ship en tv fm dir a ge e h).1 hk,
    fun ship d ge s' h => (cruise_ok_state ship d ge s' h).2.1,
    fun ship t ge s' h => (wait_ok_state ship t ge s' h).1⟩

/-- C5 amended, witness: a concrete successful cruise keeps the velocity. -/
theorem relativistic_check_amended_witness :
    shipMoving.cruise 2 false = .ok cruiseResult
    ∧ cruiseResult.velocity = shipMoving.velocity :=
  ⟨cruise_shipMoving,
    relativistic_check_amended.2.2.1 shipMoving 2 false cruiseResult cruise_shipMoving⟩

/-- C6: construction writes one initial entry with an empty message; after
any sequence of maneuver calls (successful or raising) the two log sequences
have equal length; every successful `cruise`, `wait` or `accelerate` appends
exactly one entry to each, while a successful `sail` appends one entry per
processed solver sample (`sailSteps`) plus one summary entry, and a
successful `swim` one entry per sample step plus one summary entry. -/
theorem log_length_invariant :
    (∀ (p : ℝ) (eng : List (String × Engine)) (v pos t dd pw : ℝ)
      (ss : Option SolarSail) (sw : Option Swimmer),
      (mkStarship p eng v pos t dd pw ss sw).history.length
        = (mkStarship p eng v pos t dd pw ss sw).log_messages.length
      ∧ (mkStarship p eng v pos t dd pw ss sw).log_messages = [""])
    ∧ (∀ (ship : Starship) (ms : List Maneuver), balancedLogs ship →
      balancedLogs (ms.foldl runManeuver ship))
    ∧ (∀ (ship : Starship) (d : ℝ) (ge : Bool) (s' : Starship),
      ship.cruise d ge = .ok s' →
      s'.history.length = ship.history.length + 1
      ∧ s'.log_messages.length = ship.log_messages.length + 1)
    ∧ (∀ (ship : Starship) (t : ℝ) (ge : Bool) (s' : Starship),
      ship.wait t ge = .ok s' →
      s'.history.length = ship.history.length + 1
      ∧ s'.log_messages.length = ship.log_messages.length + 1)
    ∧ (∀ (ship : Starship) (en : String) (tv : ℝ) (fm : Option ℝ) (dir a : ℝ)
      (ge : Bool) (s' : Starship),
      ship.accelerate en tv fm dir a ge = .ok s' →
      s'.history.length = ship.history.length + 1
      ∧ s'.log_messages.length = ship.log_messages.length + 1)
    ∧ (∀ (ship : Starship) (tv star : ℝ) (ge : Bool) (first : ℝ × ℝ × ℝ)
      (rest : List (ℝ × ℝ × ℝ)) (s' : Starship),
      ship.sail (some tv) star ge (first :: rest) = .ok s' →
      s'.history.length
        = ship.history.length + sailSteps tv (ship.position - star) first rest + 1
      ∧ s'.log_messages.length
        = ship.log_messages.length + sailSteps tv (ship.position - star) first rest + 1)
    ∧ (∀ (ship : Starship) (ge : Bool) (first : ℝ × ℝ × ℝ)
      (rest : List (ℝ × ℝ × ℝ)) (s' : Starship),
      ship.swim ge (first :: rest) = .ok s' →
      s'.history.length = ship.history.length + rest.length + 1
      ∧ s'.log_messages.length = ship.log_messages.length + rest.length + 1) :=
  ⟨fun p eng v pos t dd pw ss sw =>
      ⟨by
        rw [(mkStarship_logs p eng v pos t dd pw ss sw).1,
          (mkStarship_logs p eng v pos t dd pw ss sw).2]
        rfl, 
        (mkStarship_logs p eng v pos t dd pw ss sw).2⟩,
    fun ship ms hb => foldl_balanced ms ship hb,
    fun ship d ge s' h =>
      ⟨(cruise_ok_state ship d ge s' h).2.2.2.2.1, (cruise_ok_state ship d ge s' h).2.2.2.2.2⟩,
    fun ship t ge s' h =>
      ⟨(wait_ok_state ship t ge s' h).2.1, (wait_ok_state ship t ge s' h).2.2⟩,
    fun ship en tv fm dir a ge s' h =>
      ⟨(accelerate_ok_facts ship en tv fm dir a ge s' h).2.1,
        (accelerate_ok_facts ship en tv fm dir a ge s' h).2.2⟩,
    fun ship tv star ge first rest s' h => sail_ok_count ship tv star ge first rest s' h,
    fun ship ge first rest s' h => swim_ok_count ship ge first rest s' h⟩

/-- C6 witness: the concrete cruise appends one entry to each sequence. -/
theorem log_length_invariant_witness :
    shipMoving.cruise 2 false = .ok cruiseResult
    ∧ cruiseResult.history.length = shipMoving.history.length + 1
    ∧ cruiseResult.log_messages.length = shipMoving.log_messages.length + 1 :=
  ⟨cruise_shipMoving,
    (log_length_invariant.2.2.1 shipMoving 2 false cruiseResult cruise_shipMoving).1,
    (log_length_invariant.2.2.1 shipMoving 2 false cruiseResult cruise_shipMoving).2⟩

/-- C7 witness: the concrete fuel-driven burn of 1 mass unit at acceleration 1
advances time by `|log(3/2)|`, velocity by `log(3/2)` and position by the
kinematics formula at pre-burn velocity 0. -/
theorem fuel_driven_accelerate_witness :
    shipAcc.accelerate "main" 0 (some 1) 1 1 false = .ok accResult
    ∧ accResult.time = shipAcc.time + |Real.log (3 / 2)| / 1
    ∧ accResult.velocity = shipAcc.velocity + 1 * Real.log (3 / 2)
    ∧ accResult.position = shipAcc.position
      + (shipAcc.velocity * (|Real.log (3 / 2)| / 1)
        + 1 * 0.5 * 1 * (|Real.log (3 / 2)| / 1) ^ 2) :=
  ⟨accelerate_shipAcc,
    (fuel_driven_accelerate shipAcc "main" 0 1 1 1 false ⟨1, 1⟩ (Real.log (3 / 2))
      ⟨0, 1⟩ accResult shipAcc_lookup burn_shipAcc accelerate_shipAcc).1,
    (fuel_driven_accelerate shipAcc "main" 0 1 1 1 false ⟨1, 1⟩ (Real.log (3 / 2))
      ⟨0, 1⟩ accResult shipAcc_lookup burn_shipAcc accelerate_shipAcc).2.1,
    (fuel_driven_accelerate shipAcc "main" 0 1 1 1 false ⟨1, 1⟩ (Real.log (3 / 2))
      ⟨0, 1⟩ accResult shipAcc_lookup burn_shipAcc accelerate_shipAcc).2.2⟩

/-- C8: `cruise` at zero velocity fails with NotMoving, the raised error
carrying the ship exactly as it was (nothing mutated); a successful `cruise`
moves by `distance * sign(velocity)`, advances time by
`|distance / velocity|` and appends exactly one log entry; with
electricity generation on it drains exactly the fuel required for
`electrical_power * elapsed_time` of energy. -/
theorem cruise_contract :
    (∀ (ship : Starship) (d : ℝ) (ge : Bool), ship.velocity = 0 →
      ship.cruise d ge = .error ⟨"NotMoving", ship⟩)
    ∧ (∀ (ship : Starship) (d : ℝ) (ge : Bool) (s' : Starship),
      ship.cruise d ge = .ok s' →
      s'.position = ship.position + d * Real.sign ship.velocity
      ∧ s'.time = ship.time + |d / ship.velocity|
      ∧ s'.history.length = ship.history.length + 1
      ∧ s'.log_messages.length = ship.log_messages.length + 1)
    ∧ (∀ (ship : Starship) (d : ℝ) (s' : Starship), 0 ≤ ship.electrical_power →
      ship.cruise d true = .ok s' →
      ship.fuel_mass - s'.fuel_mass
        = requiredFuelLoss (ship.electrical_power * |d / ship.velocity|) 0.7) :=
  ⟨cruise_notmoving,
    fun ship d ge s' h =>
      ⟨(cruise_ok_state ship d ge s' h).2.2.1, (cruise_ok_state ship d ge s' h).2.2.2.1,
        (cruise_ok_state ship d ge s' h).2.2.2.2.1,
        (cruise_ok_state ship d ge s' h).2.2.2.2.2⟩,
    cruise_fuel⟩

/-- C8 witness: cruising a ship at rest fails with NotMoving, carrying the
unchanged ship. -/
theorem cruise_contract_witness :
    shipStill.cruise 5 true = .error ⟨"NotMoving", shipStill⟩ :=
  cruise_contract.1 shipStill 5 true rfl

theorem abs_sign_of_ne (d : ℝ) (hd : d ≠ 0) : |Real.sign d| = 1 := by
  rcases lt_or_gt_of_ne hd with h | h
  · rw [Real.sign_of_neg h]
    norm_num
  · rw [Real.sign_of_pos h]
    norm_num

/-- C9: `SolarSail.acceleration` is the inverse-square radiation-pressure
formula signed by `sign(relative_position_from_star)`; with a positive
`max_accel` the magnitude is capped at
`min(uncapped magnitude, max_accel)` with the sign factor preserved. -/
theorem sail_acceleration_formula (sl : SolarSail) (d pm : ℝ) (hd : d ≠ 0)
    (hrefl : 0 ≤ sl.reflectivity) (hL : 0 ≤ sl.stellar_luminosity)
    (hm : 0 < sl.sail_mass + pm) :
    sl.acceleration d pm none
      = (1 + sl.reflectivity) * sl.stellar_luminosity * sl.sail_radius ^ 2
        / (4 * c * (sl.sail_mass + pm) * d ^ 2) * Real.sign d
    ∧ ∀ ma : ℝ, 0 < ma →
      sl.acceleration d pm (some ma)
        = min ((1 + sl.reflectivity) * sl.stellar_luminosity * sl.sail_radius ^ 2
            / (4 * c * (sl.sail_mass + pm) * d ^ 2)) ma * Real.sign d
      ∧ |sl.acceleration d pm (some ma)|
        = min ((1 + sl.reflectivity) * sl.stellar_luminosity * sl.sail_radius ^ 2
            / (4 * c * (sl.sail_mass + pm) * d ^ 2)) ma := by
  have hc : (0 : ℝ) < c := by norm_num [c]
  have hg : (0 : ℝ) < g := by norm_num [g]
  have hbase : 0 ≤ (1 + sl.reflectivity) * sl.stellar_luminosity * sl.sail_radius ^ 2
      / (4 * c * (sl.sail_mass + pm) * d ^ 2) := by
    apply div_nonneg
    · exact mul_nonneg (mul_nonneg (by linarith) hL) (sq_nonneg _)
    · positivity
  constructor
  · simp only [SolarSail.acceleration]
  · intro ma hma
    have hcap : sl.acceleration d pm (some ma)
        = min ((1 + sl.reflectivity) * sl.stellar_luminosity * sl.sail_radius ^ 2
            / (4 * c * (sl.sail_mass + pm) * d ^ 2)) ma * Real.sign d := by
      simp only [SolarSail.acceleration, if_pos hma.ne']
      congr 1
      rcases le_total ((1 + sl.reflectivity) * sl.stellar_luminosity * sl.sail_radius ^ 2
          / (4 * c * (sl.sail_mass + pm) * d ^ 2)) ma with hle | hle
      · rw [min_eq_left ((div_le_div_right hg).2 hle), min_eq_left hle]
        exact div_mul_cancel₀ _ (ne_of_gt hg)
      · rw [min_eq_right ((div_le_div_right hg).2 hle), min_eq_right hle]
        exact div_mul_cancel₀ _ (ne_of_gt hg)
    refine ⟨hcap, ?_⟩
    rw [hcap, abs_mul, abs_sign_of_ne d hd, mul_one,
      abs_of_nonneg (le_min hbase hma.le)]

/-- C9 witness at a unit sail one unit from the star with no cap. -/
theorem sail_acceleration_formula_witness :
    sl9.acceleration 1 0 none
      = (1 + sl9.reflectivity) * sl9.stellar_luminosity * sl9.sail_radius ^ 2
        / (4 * c * (sl9.sail_mass + 0) * 1 ^ 2) * Real.sign 1 :=
  (sail_acceleration_formula sl9 1 0 one_ne_zero (by norm_num [sl9])
    (by norm_num [sl9, c]) (by norm_num [sl9])).1

/-- C10: whenever `sail` runs with a zero target velocity — passed explicitly
or inferred in the deceleration case — a successful run ends with the
velocity set to exactly zero, whatever the solver samples were (including a
horizon that expires without the velocity sign ever flipping). -/
theorem sail_zero_target_velocity :
    (∀ (ship : Starship) (star : ℝ) (ge : Bool) (smp : List (ℝ × ℝ × ℝ))
      (s' : Starship),
      ship.sail (some 0) star ge smp = .ok s' → s'.velocity = 0)
    ∧ (∀ (ship : Starship) (star : ℝ) (ge : Bool) (smp : List (ℝ × ℝ × ℝ))
      (s' : Starship),
      Real.sign (ship.position - star) = -1 * Real.sign (ship.velocity / c) →
      ship.sail none star ge smp = .ok s' → s'.velocity = 0) := by
  constructor
  · intro ship star ge smp s' h
    rcases hsl : ship.solar_sail with _ | sl
    · simp only [Starship.sail, hsl] at h
      exact absurd h (by simp)
    · simp only [Starship.sail, hsl] at h
      exact sailCore_zero_velocity _ _ _ _ _ _ h
  · intro ship star ge smp s' hsgn h
    rcases hsl : ship.solar_sail with _ | sl
    · simp only [Starship.sail, hsl] at h
      exact absurd h (by simp)
    · simp only [Starship.sail, hsl] at h
      rw [if_pos hsgn] at h
      exact sailCore_zero_velocity _ _ _ _ _ _ h

/-- C10 witness: a concrete zero-target sail ends at velocity exactly zero. -/
theorem sail_zero_target_velocity_witness :
    shipSailing.sail (some 0) 0 false [] = .ok sailResult
    ∧ sailResult.velocity = 0 :=
  ⟨sail_shipSailing,
    sail_zero_target_velocity.1 shipSailing 0 false [] sailResult sail_shipSailing⟩

end MissionPlanning
